import Mathlib

/-!
# Paradise Nursery: the cart slice and its selectors

A shallow embedding of the Redux cart slice of
`src/paradise_nursery_react_redux_frontend_spa.jsx` (lines 63-119) and of the
in-cart test of `ProductCard` (line 202), followed by the properties of the
cart state machine.

Modelling conventions.

* `state.items` is a plain JavaScript object created by the literal `{}`.  It is
  represented by the list of its own properties in creation order.  Reading
  `state.items[k]` follows the JavaScript property lookup: an own property wins,
  otherwise the property is looked up on `Object.prototype`, otherwise the
  result is `undefined`.
* A reducer written in the mutating style of `createSlice` is represented by the
  function from the state before to the state after.
* JavaScript numbers are IEEE 754 binary64 values.  A finite one is an integer
  number of units of `2^-1074` (every finite binary64 value is such a multiple),
  and every arithmetic result is the exact result rounded to 53 significant
  binary digits, to nearest, ties to even; a result beyond the largest finite
  value is `nonFinite`, which stands for `Infinity`, `-Infinity` and `NaN`.
* `quantity` holds an integer-valued number and is represented by that integer
  (`Int`); `quantity += 1` and `quantity -= 1` round like every other sum.
-/

set_option exponentiation.threshold 4096

namespace ParadiseNursery

/-! ## JavaScript numbers -/

/-- The number of binary digits of `a`, counted with at most `fuel` halvings. -/
def bitLengthAux : Nat → Nat → Nat → Nat
  | 0, _, acc => acc
  | fuel + 1, a, acc => if a = 0 then acc else bitLengthAux fuel (a / 2) (acc + 1)

/-- The number of binary digits of `a` (`0` for `a = 0`). -/
def bitLength (a : Nat) : Nat :=
  bitLengthAux a a 0

/-- The fraction `a / d`, counted in units, rounded to a number of units with 53
significant binary digits: to nearest, ties to the even significand.  This is
the binary64 rounding; below `2^53` units every integer is kept, which is the
subnormal range when the unit is `2^-1074`. -/
def roundNat (a d : Nat) : Nat :=
  let k := bitLength (a / d) - 53
  let m := a / (d * 2 ^ k)
  let r := a % (d * 2 ^ k)
  if d * 2 ^ k < 2 * r ∨ (2 * r = d * 2 ^ k ∧ m % 2 = 1) then (m + 1) * 2 ^ k else m * 2 ^ k

/-- The integer `n` rounded to 53 significant binary digits (to nearest, ties to
even): the value of an arithmetic result whose exact value is `n`.  It is used
with the unit `2^-1074` for numbers in general and with the unit 1 for
`quantity`, where adding or subtracting 1 never leaves the finite range. -/
def roundInt (n : Int) : Int :=
  if n < 0 then -((roundNat (-n).toNat 1 : Nat) : Int) else ((roundNat n.toNat 1 : Nat) : Int)

/-- A JavaScript number: a finite binary64 value, given as its number of units of
`2^-1074`, or a non-finite one (`Infinity`, `-Infinity`, `NaN`). -/
inductive JsNumber where
  | finite (units : Int)
  | nonFinite
  deriving DecidableEq

/-- The number of units of a finite number (`0` for a non-finite one). -/
def JsNumber.units : JsNumber → Int
  | .finite u => u
  | .nonFinite => 0

/-- The number an arithmetic operation returns when its exact result is `exact`
units: the rounded value, or a non-finite number when that exceeds the largest
finite binary64 value (`2^1024` is `2^2098` units). -/
def JsNumber.ofExact (exact : Int) : JsNumber :=
  if roundInt exact ≤ -(2 ^ 2098) ∨ 2 ^ 2098 ≤ roundInt exact then .nonFinite
  else .finite (roundInt exact)

/-- The value of the numeric literal whose exact value is `n / d`: the nearest
binary64 value. -/
@[irreducible]
def JsNumber.ofRatio (n : Int) (d : Nat) : JsNumber :=
  if 2 ^ 2098 ≤ roundNat (n.natAbs * 2 ^ 1074) d then .nonFinite
  else if n < 0 then .finite (-((roundNat (n.natAbs * 2 ^ 1074) d : Nat) : Int))
  else .finite ((roundNat (n.natAbs * 2 ^ 1074) d : Nat) : Int)

/-- The number with the integer value `n` (`1` is `2^1074` units). -/
def JsNumber.ofInt (n : Int) : JsNumber :=
  JsNumber.ofExact (n * 2 ^ 1074)

/-- The sum `x + y` of two numbers; a sum with a non-finite operand is
non-finite. -/
def JsNumber.add : JsNumber → JsNumber → JsNumber
  | .finite a, .finite b => JsNumber.ofExact (a + b)
  | _, _ => .nonFinite

/-- The product `q * x` of the integer-valued number `q` and the number `x`; a
product with a non-finite operand is non-finite. -/
def JsNumber.mulInt (q : Int) : JsNumber → JsNumber
  | .finite a => JsNumber.ofExact (q * a)
  | .nonFinite => .nonFinite

/-! ## Data model -/

/-- An entry of the catalog `PRODUCTS` (lines 11-61). -/
structure Product where
  id : String
  name : String
  price : JsNumber
  category : String
  img : String
  deriving DecidableEq

/-- The payload of `addItem`, `{id, name, price, img}` (comment on line 79 and the
dispatch on line 217). -/
structure Payload where
  id : String
  name : String
  price : JsNumber
  img : String
  deriving DecidableEq

/-- A cart line, `{ id, name, price, img, quantity }` (lines 68-71). -/
structure CartLine where
  id : String
  name : String
  price : JsNumber
  img : String
  quantity : Int
  deriving DecidableEq

/-- The own properties of the object `state.items`, in creation order. -/
abbrev Items := List (String × CartLine)

/-- The state of the cart slice, `{ items }` (lines 66-72). -/
structure CartState where
  items : Items
  deriving DecidableEq

/-- The state of the store, `{ cart }` (lines 107-111). -/
structure RootState where
  cart : CartState
  deriving DecidableEq

/-- The catalog (lines 11-61); each price is the binary64 value of its literal. -/
def PRODUCTS : List Product :=
  [ ⟨"zz", "ZZ Plant", .ofRatio 1999 100, "Low Light",
      "https://images.unsplash.com/photo-1598899134739-24b4b2395a49?q=80&w=1200&auto=format&fit=crop"⟩,
    ⟨"snake", "Snake Plant", .ofRatio 245 10, "Low Light",
      "https://images.unsplash.com/photo-1604391790123-7897082a35c8?q=80&w=1200&auto=format&fit=crop"⟩,
    ⟨"pothos", "Golden Pothos", .ofRatio 1425 100, "Easy Care",
      "https://images.unsplash.com/photo-1560179707-f14e90ef7d50?q=80&w=1200&auto=format&fit=crop"⟩,
    ⟨"monstera", "Monstera Deliciosa", .ofRatio 34 1, "Statement",
      "https://images.unsplash.com/photo-1524594081293-190a2fe0baae?q=80&w=1200&auto=format&fit=crop"⟩,
    ⟨"peace", "Peace Lily", .ofRatio 22 1, "Air Purifying",
      "https://images.unsplash.com/photo-1598899134638-4e5a7a2bb27c?q=80&w=1200&auto=format&fit=crop"⟩,
    ⟨"areca", "Areca Palm", .ofRatio 2975 100, "Air Purifying",
      "https://images.unsplash.com/photo-1614594858600-6be5a6b5fbff?q=80&w=1200&auto=format&fit=crop"⟩,
    ⟨"calathea", "Calathea", .ofRatio 21 1, "Pet-Friendly",
      "https://images.unsplash.com/photo-1598899134572-57b7fcd24fb7?q=80&w=1200&auto=format&fit=crop"⟩ ]

/-- The payload built by `ProductCard` on line 217:
`{ id: p.id, name: p.name, price: p.price, img: p.img }`. -/
def Product.payload (p : Product) : Payload :=
  ⟨p.id, p.name, p.price, p.img⟩

/-! ## JavaScript objects used as maps -/

/-- The property names every object created by `{}` inherits from
`Object.prototype`. -/
def objectPrototypeKeys : List String :=
  [ "constructor", "__defineGetter__", "__defineSetter__", "hasOwnProperty",
    "__lookupGetter__", "__lookupSetter__", "isPrototypeOf", "propertyIsEnumerable",
    "toString", "valueOf", "__proto__", "toLocaleString" ]

/-- What the expression `state.items[k]` can evaluate to. -/
inductive JsValue where
  /-- The key is neither an own nor an inherited property. -/
  | undefined
  /-- The key is an own property: a cart line object. -/
  | line (l : CartLine)
  /-- The key is not an own property and names a member of `Object.prototype`
  (a built-in function, or the prototype object itself for `__proto__`). -/
  | inherited (k : String)
  deriving DecidableEq

/-- JavaScript truthiness (`ToBoolean`): `undefined` is falsy, objects and
functions are truthy. -/
def JsValue.truthy : JsValue → Bool
  | .undefined => false
  | .line _ => true
  | .inherited _ => true

/-- The own property stored under `k`, if any: "the cart holds a line for `k`". -/
def getOwn : Items → String → Option CartLine
  | [], _ => none
  | (k', l) :: rest, k => if k' = k then some l else getOwn rest k

/-- The property read `items[k]`. -/
def getProp (items : Items) (k : String) : JsValue :=
  match getOwn items k with
  | some l => .line l
  | none => if k ∈ objectPrototypeKeys then .inherited k else .undefined

/-- The assignment `items[k] = l`: an existing own property keeps its place and
takes the new value, a new own property is created last. -/
def setOwn : Items → String → CartLine → Items
  | [], k, l => [(k, l)]
  | (k', l') :: rest, k, l =>
    if k' = k then (k', l) :: rest else (k', l') :: setOwn rest k l

/-- The statement `delete items[k]`: the own property `k` is removed, nothing
else changes. -/
def deleteOwn : Items → String → Items
  | [], _ => []
  | (k', l') :: rest, k =>
    if k' = k then deleteOwn rest k else (k', l') :: deleteOwn rest k

/-- The update `items[k].quantity = f (items[k].quantity)` of the line object
stored under the own property `k`. -/
def updateQuantity : Items → String → (Int → Int) → Items
  | [], _, _ => []
  | (k', l') :: rest, k, f =>
    if k' = k then (k', { l' with quantity := f l'.quantity }) :: updateQuantity rest k f
    else (k', l') :: updateQuantity rest k f

/-- The decimal value of a key that is an array index: a canonical decimal
numeral (no leading zero) below `2^32 - 1`. -/
def arrayIndex? (k : String) : Option Nat :=
  let cs := k.data
  if cs ≠ [] ∧ cs.all Char.isDigit = true ∧ (cs.head? ≠ some '0' ∨ cs.length = 1) then
    let n := cs.foldl (fun acc c => 10 * acc + (c.toNat - 48)) 0
    if n < 2 ^ 32 - 1 then some n else none
  else none

/-- The array `Object.values(items)`: the values of the array-index keys in
ascending numeric order, then the values of the other keys in creation order. -/
def objectValues (items : Items) : List CartLine :=
  let indexed := items.filterMap (fun e => (arrayIndex? e.1).map (fun n => (n, e.2)))
  let named := items.filter (fun e => (arrayIndex? e.1).isNone)
  (indexed.insertionSort (fun a b => a.1 ≤ b.1)).map Prod.snd ++ named.map Prod.snd

/-! ## The cart slice (lines 66-103) -/

/-- The initial state, `{ items: {} }` (lines 66-72). -/
def initialState : CartState :=
  ⟨[]⟩

/-- The reducer `addItem` (lines 78-83):
`if (!state.items[p.id]) state.items[p.id] = { ...p, quantity: 1 }`. -/
def addItem (state : CartState) (p : Payload) : CartState :=
  if !(getProp state.items p.id).truthy then
    ⟨setOwn state.items p.id ⟨p.id, p.name, p.price, p.img, 1⟩⟩
  else state

/-- The reducer `increase` (lines 84-87):
`if (state.items[id]) state.items[id].quantity += 1`.
The sum `quantity + 1` is rounded like every number.
When `state.items[id]` is a member inherited from `Object.prototype`, the write
lands on that shared built-in object and the cart state is untouched. -/
def increase (state : CartState) (id : String) : CartState :=
  match getProp state.items id with
  | .line _ => ⟨updateQuantity state.items id (fun q => roundInt (q + 1))⟩
  | .inherited _ => state
  | .undefined => state

/-- The reducer `decrease` (lines 88-94):
`if (state.items[id]) { state.items[id].quantity -= 1;
   if (state.items[id].quantity <= 0) delete state.items[id]; }`.
The difference `quantity - 1` is rounded like every number.
When `state.items[id]` is a member inherited from `Object.prototype`, the write
lands on that shared built-in object, whose `quantity` becomes `NaN`; the test
`NaN <= 0` fails and the cart state is untouched. -/
def decrease (state : CartState) (id : String) : CartState :=
  match getProp state.items id with
  | .line l =>
    if roundInt (l.quantity - 1) ≤ 0 then
      ⟨deleteOwn (updateQuantity state.items id (fun q => roundInt (q - 1))) id⟩
    else ⟨updateQuantity state.items id (fun q => roundInt (q - 1))⟩
  | .inherited _ => state
  | .undefined => state

/-- The reducer `remove` (lines 95-98): `delete state.items[id]`. -/
def remove (state : CartState) (id : String) : CartState :=
  ⟨deleteOwn state.items id⟩

/-- The reducer `clear` (lines 99-101): `state.items = {}`. -/
def clear (_state : CartState) : CartState :=
  ⟨[]⟩

/-- The actions of the slice (line 105). -/
inductive Action where
  | addItem (p : Payload)
  | increase (id : String)
  | decrease (id : String)
  | remove (id : String)
  | clear
  deriving DecidableEq

/-- The slice reducer `cartSlice.reducer` (line 109): each action runs the case
reducer of its name. -/
def reducer (state : CartState) : Action → CartState
  | .addItem p => addItem state p
  | .increase id => increase state id
  | .decrease id => decrease state id
  | .remove id => remove state id
  | .clear => clear state

/-- The cart state after dispatching the actions in order from `state`. -/
def dispatchAll (state : CartState) (actions : List Action) : CartState :=
  actions.foldl reducer state

/-! ## Selectors (lines 116-119) and the in-cart test (line 202) -/

/-- The selector `selectItems`: `state.cart.items`. -/
def selectItems (state : RootState) : Items :=
  state.cart.items

/-- The selector `selectCartArray`: `Object.values(items)`. -/
def selectCartArray (state : RootState) : List CartLine :=
  objectValues (selectItems state)

/-- The selector `selectTotalItems`:
`arr.reduce((sum, it) => sum + it.quantity, 0)`. -/
def selectTotalItems (state : RootState) : JsNumber :=
  (selectCartArray state).foldl (fun sum it => sum.add (JsNumber.ofInt it.quantity))
    (.finite 0)

/-- The selector `selectTotalCost`:
`arr.reduce((sum, it) => sum + it.quantity * it.price, 0)`. -/
def selectTotalCost (state : RootState) : JsNumber :=
  (selectCartArray state).foldl (fun sum it => sum.add (JsNumber.mulInt it.quantity it.price))
    (.finite 0)

/-- The in-cart test of `ProductCard` (line 202): `Boolean(items[p.id])`. -/
def alreadyInCart (state : RootState) (id : String) : Bool :=
  (getProp (selectItems state) id).truthy

/-! ## Specification-side definitions -/

/-- TotalItemCount in the words of the specification: the sum of `quantity` over
the lines stored in the cart, as an exact integer. -/
def specTotalItemCount (items : Items) : Int :=
  (items.map (fun e => e.2.quantity)).sum

/-- TotalCost in the words of the specification: the sum of `quantity * price`
over the lines stored in the cart, as an exact number of units of `2^-1074`. -/
def specTotalCost (items : Items) : Int :=
  (items.map (fun e => e.2.quantity * e.2.price.units)).sum

/-- The item count needs no rounding: the quantities are non-negative and their
exact sum is at most `2^53`. -/
def CountInRange (items : Items) : Prop :=
  (∀ e ∈ items, 0 ≤ e.2.quantity) ∧ specTotalItemCount items ≤ 2 ^ 53

/-- The cost needs no rounding: the quantities are non-negative, every price is a
finite non-negative multiple of the step `2^g` units (`g ≤ 2044`), and the exact
total is at most `2^53` steps. -/
def CostOnGrid (g : Nat) (items : Items) : Prop :=
  g ≤ 2044 ∧
    (∀ e ∈ items, 0 ≤ e.2.quantity ∧ ∃ p : Int, 0 ≤ p ∧ e.2.price = .finite (p * 2 ^ g)) ∧
    specTotalCost items ≤ 2 ^ 53 * 2 ^ g

/-- Invariants I1, I2 and I3 of the data model, with the bound kept by
`quantity += 1`: the keys are pairwise distinct, every key equals the `id` of its
line, and every quantity is at least 1 and at most `2^53`. -/
def WellFormed (items : Items) : Prop :=
  (items.map Prod.fst).Nodup ∧
    ∀ e ∈ items, e.1 = e.2.id ∧ 1 ≤ e.2.quantity ∧ e.2.quantity ≤ 2 ^ 53

instance (items : Items) : Decidable (WellFormed items) := by
  unfold WellFormed
  infer_instance

/-! ## Rounding lemmas -/

theorem le_bitLengthAux (fuel a acc : Nat) : acc ≤ bitLengthAux fuel a acc := by
  induction fuel generalizing a acc with
  | zero => simp [bitLengthAux]
  | succ fuel ih =>
    unfold bitLengthAux
    split
    · exact le_refl _
    · exact le_trans (Nat.le_succ _) (ih _ _)

theorem bitLengthAux_le_iff (fuel a acc n : Nat) (h : a ≤ fuel) :
    bitLengthAux fuel a acc ≤ acc + n ↔ a < 2 ^ n := by
  induction fuel generalizing a acc n with
  | zero =>
    have : a = 0 := by omega
    subst this
    simp [bitLengthAux]
  | succ fuel ih =>
    unfold bitLengthAux
    by_cases ha : a = 0
    · subst ha
      simp
    · simp only [ha, if_false]
      have hdiv : a / 2 ≤ fuel := by omega
      cases n with
      | zero =>
        have h1 := le_bitLengthAux fuel (a / 2) (acc + 1)
        constructor
        · intro h2; omega
        · intro h2; simp at h2; omega
      | succ n =>
        have := ih (a / 2) (acc + 1) n hdiv
        rw [show acc + (n + 1) = acc + 1 + n by omega, this, pow_succ]
        omega

theorem bitLength_le_iff (a n : Nat) : bitLength a ≤ n ↔ a < 2 ^ n := by
  have := bitLengthAux_le_iff a a 0 n (le_refl _)
  simpa [bitLength] using this

theorem roundNat_eq_self_of_dvd {a : Nat} (h : 2 ^ (bitLength a - 53) ∣ a) :
    roundNat a 1 = a := by
  unfold roundNat
  simp only [Nat.div_one, one_mul]
  have hr : a % 2 ^ (bitLength a - 53) = 0 := Nat.mod_eq_zero_of_dvd h
  have hpos : 0 < 2 ^ (bitLength a - 53) := Nat.two_pow_pos _
  rw [hr]
  have hcond : ¬ (2 ^ (bitLength a - 53) < 2 * 0 ∨
      (2 * 0 = 2 ^ (bitLength a - 53) ∧ a / 2 ^ (bitLength a - 53) % 2 = 1)) := by
    intro hc
    rcases hc with hc | hc
    · omega
    · omega
  rw [if_neg hcond]
  exact Nat.div_mul_cancel h

theorem roundNat_mul_two_pow {m : Nat} (hm : m ≤ 2 ^ 53) (g : Nat) :
    roundNat (m * 2 ^ g) 1 = m * 2 ^ g := by
  apply roundNat_eq_self_of_dvd
  rcases Nat.lt_or_ge m (2 ^ 53) with hlt | hge
  · have hb : bitLength (m * 2 ^ g) ≤ 53 + g := by
      rw [bitLength_le_iff, pow_add]
      exact Nat.mul_lt_mul_of_pos_right hlt (Nat.two_pow_pos _)
    have hk : bitLength (m * 2 ^ g) - 53 ≤ g := by omega
    exact Dvd.dvd.mul_left (pow_dvd_pow 2 hk) m
  · have hm2 : m = 2 ^ 53 := le_antisymm hm hge
    subst hm2
    have hb : bitLength (2 ^ 53 * 2 ^ g) ≤ 54 + g := by
      rw [bitLength_le_iff, pow_add]
      exact Nat.mul_lt_mul_of_pos_right (by norm_num) (Nat.two_pow_pos _)
    have hk : bitLength (2 ^ 53 * 2 ^ g) - 53 ≤ 53 + g := by omega
    have hd := pow_dvd_pow 2 hk
    rwa [pow_add] at hd

theorem roundInt_mul_two_pow {m : Int} (hlo : -2 ^ 53 ≤ m) (hhi : m ≤ 2 ^ 53) (g : Nat) :
    roundInt (m * 2 ^ g) = m * 2 ^ g := by
  have hpos : (0 : Int) < 2 ^ g := by positivity
  unfold roundInt
  by_cases hneg : m * 2 ^ g < 0
  · rw [if_pos hneg]
    have hm : m < 0 := by
      by_contra hc
      have : 0 ≤ m * 2 ^ g := mul_nonneg (by omega) (le_of_lt hpos)
      omega
    have htn : (-(m * 2 ^ g)).toNat = (-m).toNat * 2 ^ g := by
      apply Int.ofNat.inj
      simp only [Int.ofNat_eq_coe]
      rw [Int.toNat_of_nonneg (by omega)]
      push_cast
      rw [Int.toNat_of_nonneg (by omega)]
      ring
    rw [htn, roundNat_mul_two_pow (by omega)]
    push_cast
    rw [Int.toNat_of_nonneg (by omega)]
    ring
  · rw [if_neg hneg]
    have hm : 0 ≤ m := by
      by_contra hc
      have : m * 2 ^ g < 0 := mul_neg_of_neg_of_pos (by omega) hpos
      omega
    have htn : (m * 2 ^ g).toNat = m.toNat * 2 ^ g := by
      apply Int.ofNat.inj
      simp only [Int.ofNat_eq_coe]
      rw [Int.toNat_of_nonneg (mul_nonneg hm (le_of_lt hpos))]
      push_cast
      rw [Int.toNat_of_nonneg hm]
    rw [htn, roundNat_mul_two_pow (by omega)]
    push_cast
    rw [Int.toNat_of_nonneg hm]

theorem roundInt_eq_self {n : Int} (hlo : -2 ^ 53 ≤ n) (hhi : n ≤ 2 ^ 53) : roundInt n = n := by
  simpa using roundInt_mul_two_pow hlo hhi 0

theorem roundInt_two_pow_53_add_one : roundInt (2 ^ 53 + 1) = 2 ^ 53 := by
  decide

theorem ofExact_of_dvd {g : Nat} (hg : g ≤ 2044) {u : Int} (h0 : 0 ≤ u)
    (hdvd : (2 : Int) ^ g ∣ u) (hle : u ≤ 2 ^ 53 * 2 ^ g) :
    JsNumber.ofExact u = .finite u := by
  obtain ⟨m, rfl⟩ := hdvd
  have hpos : (0 : Int) < 2 ^ g := by positivity
  have hm0 : 0 ≤ m := by
    by_contra hc
    have : (2 : Int) ^ g * m < 0 := mul_neg_of_pos_of_neg hpos (by omega)
    omega
  have hm : m ≤ 2 ^ 53 := by
    by_contra hc
    have : (2 : Int) ^ 53 * 2 ^ g < 2 ^ g * m := by
      rw [mul_comm ((2 : Int) ^ g) m]
      exact mul_lt_mul_of_pos_right (by omega) hpos
    omega
  have hround : roundInt (2 ^ g * m) = 2 ^ g * m := by
    rw [mul_comm]
    exact roundInt_mul_two_pow (by omega) hm g
  have hbound : (2 : Int) ^ 53 * 2 ^ g < 2 ^ 2098 := by
    have h1 : (2 : Int) ^ g ≤ 2 ^ 2044 := pow_le_pow_right₀ (by norm_num) hg
    have h2 : (2 : Int) ^ 53 * 2 ^ g ≤ 2 ^ 53 * 2 ^ 2044 :=
      mul_le_mul_of_nonneg_left h1 (by positivity)
    have h3 : (2 : Int) ^ 53 * 2 ^ 2044 < 2 ^ 2098 := by
      rw [← pow_add]
      exact pow_lt_pow_right₀ (by norm_num) (by norm_num)
    exact lt_of_le_of_lt h2 h3
  unfold JsNumber.ofExact
  rw [hround, if_neg]
  intro hc
  rcases hc with hc | hc
  · have : (0 : Int) < 2 ^ 2098 := by positivity
    omega
  · omega

theorem foldl_add_ofExact {α : Type} {g : Nat} (hg : g ≤ 2044) (f : α → JsNumber)
    (u : α → Int) (L : List α)
    (h : ∀ l ∈ L, 0 ≤ u l ∧ (2 : Int) ^ g ∣ u l ∧ f l = JsNumber.ofExact (u l))
    (acc : Int) (h0 : 0 ≤ acc) (hdvd : (2 : Int) ^ g ∣ acc)
    (hsum : acc + (L.map u).sum ≤ 2 ^ 53 * 2 ^ g) :
    L.foldl (fun sum it => JsNumber.add sum (f it)) (JsNumber.finite acc) =
      JsNumber.finite (acc + (L.map u).sum) := by
  induction L generalizing acc with
  | nil => simp
  | cons l rest ih =>
    have hl := h l (List.mem_cons_self _ _)
    have hrest : ∀ x ∈ rest, 0 ≤ u x ∧ (2 : Int) ^ g ∣ u x ∧ f x = JsNumber.ofExact (u x) :=
      fun x hx => h x (List.mem_cons_of_mem _ hx)
    have hnonneg : 0 ≤ (rest.map u).sum := by
      apply List.sum_nonneg
      intro x hx
      obtain ⟨y, hy, rfl⟩ := List.mem_map.mp hx
      exact (hrest y hy).1
    simp only [List.map_cons, List.sum_cons] at hsum
    have hterm : f l = .finite (u l) := by
      rw [hl.2.2]
      exact ofExact_of_dvd hg hl.1 hl.2.1 (by omega)
    have hstep : JsNumber.add (JsNumber.finite acc) (f l) = .finite (acc + u l) := by
      rw [hterm]
      show JsNumber.ofExact (acc + u l) = _
      exact ofExact_of_dvd hg (by omega) (dvd_add hdvd hl.2.1) (by omega)
    rw [List.foldl_cons, hstep, ih hrest (acc + u l) (by omega) (dvd_add hdvd hl.2.1)
      (by omega)]
    simp only [List.map_cons, List.sum_cons]
    rw [add_assoc]

/-! ## Own-property lemmas -/

theorem getOwn_append (xs ys : Items) (k : String) :
    getOwn (xs ++ ys) k = (getOwn xs k).orElse (fun _ => getOwn ys k) := by
  induction xs with
  | nil => simp [getOwn]
  | cons e rest ih =>
    obtain ⟨k', l'⟩ := e
    by_cases hk : k' = k
    · simp [getOwn, hk]
    · simp [getOwn, hk, ih]

theorem getOwn_eq_none_iff (items : Items) (k : String) :
    getOwn items k = none ↔ k ∉ items.map Prod.fst := by
  induction items with
  | nil => simp [getOwn]
  | cons e rest ih =>
    obtain ⟨k', l'⟩ := e
    by_cases hk : k' = k
    · simp [getOwn, hk]
    · have hk2 : ¬ k = k' := fun h => hk h.symm
      simp [getOwn, hk, hk2, ih]

theorem mem_of_getOwn_eq_some {items : Items} {k : String} {l : CartLine}
    (h : getOwn items k = some l) : (k, l) ∈ items := by
  induction items with
  | nil => simp [getOwn] at h
  | cons e rest ih =>
    obtain ⟨k', l'⟩ := e
    by_cases hk : k' = k
    · simp [getOwn, hk] at h
      simp [hk, h]
    · simp [getOwn, hk] at h
      exact List.mem_cons_of_mem _ (ih h)

theorem getOwn_eq_some_of_mem {items : Items} (hnd : (items.map Prod.fst).Nodup)
    {k : String} {l : CartLine} (h : (k, l) ∈ items) : getOwn items k = some l := by
  induction items with
  | nil => simp at h
  | cons e rest ih =>
    obtain ⟨k', l'⟩ := e
    simp only [List.map_cons, List.nodup_cons] at hnd
    rcases List.mem_cons.mp h with heq | hmem
    · cases heq
      simp [getOwn]
    · have hk : k' ≠ k := by
        intro hk
        apply hnd.1
        rw [hk]
        exact List.mem_map_of_mem Prod.fst hmem
      simp [getOwn, hk, ih hnd.2 hmem]

theorem setOwn_of_getOwn_eq_none {items : Items} {k : String} (h : getOwn items k = none)
    (l : CartLine) : setOwn items k l = items ++ [(k, l)] := by
  induction items with
  | nil => simp [setOwn]
  | cons e rest ih =>
    obtain ⟨k', l'⟩ := e
    by_cases hk : k' = k
    · simp [getOwn, hk] at h
    · simp [getOwn, hk] at h
      simp [setOwn, hk, ih h]

theorem getOwn_setOwn_self (items : Items) (k : String) (l : CartLine) :
    getOwn (setOwn items k l) k = some l := by
  induction items with
  | nil => simp [setOwn, getOwn]
  | cons e rest ih =>
    obtain ⟨k', l'⟩ := e
    by_cases hk : k' = k
    · simp [setOwn, getOwn, hk]
    · simp [setOwn, getOwn, hk, ih]

theorem getOwn_setOwn_of_ne (items : Items) {k j : String} (hj : j ≠ k) (l : CartLine) :
    getOwn (setOwn items k l) j = getOwn items j := by
  have hkj2 : ¬ k = j := fun h => hj h.symm
  induction items with
  | nil => simp [setOwn, getOwn, hkj2]
  | cons e rest ih =>
    obtain ⟨k', l'⟩ := e
    by_cases hk : k' = k
    · subst hk
      simp [setOwn, getOwn, hkj2]
    · by_cases hkj : k' = j
      · subst hkj
        simp [setOwn, getOwn, hk]
      · simp [setOwn, getOwn, hk, hkj, ih]

theorem keys_deleteOwn (items : Items) (k : String) :
    (deleteOwn items k).map Prod.fst = (items.map Prod.fst).filter (fun j => j ≠ k) := by
  induction items with
  | nil => simp [deleteOwn]
  | cons e rest ih =>
    obtain ⟨k', l'⟩ := e
    by_cases hk : k' = k
    · simp [deleteOwn, hk, ih]
    · simp [deleteOwn, hk, ih]

theorem mem_of_mem_deleteOwn {items : Items} {k : String} {e : String × CartLine}
    (h : e ∈ deleteOwn items k) : e ∈ items ∧ e.1 ≠ k := by
  induction items with
  | nil => simp [deleteOwn] at h
  | cons e' rest ih =>
    obtain ⟨k', l'⟩ := e'
    by_cases hk : k' = k
    · simp only [deleteOwn, hk, if_true] at h
      exact ⟨List.mem_cons_of_mem _ (ih h).1, (ih h).2⟩
    · simp only [deleteOwn, hk, if_false] at h
      rcases List.mem_cons.mp h with heq | hmem
      · subst heq
        exact ⟨List.mem_cons_self _ _, hk⟩
      · exact ⟨List.mem_cons_of_mem _ (ih hmem).1, (ih hmem).2⟩

theorem getOwn_deleteOwn_self (items : Items) (k : String) :
    getOwn (deleteOwn items k) k = none := by
  induction items with
  | nil => simp [deleteOwn, getOwn]
  | cons e rest ih =>
    obtain ⟨k', l'⟩ := e
    by_cases hk : k' = k
    · simp [deleteOwn, hk, ih]
    · simp [deleteOwn, getOwn, hk, ih]

theorem getOwn_deleteOwn_of_ne (items : Items) {k j : String} (hj : j ≠ k) :
    getOwn (deleteOwn items k) j = getOwn items j := by
  have hkj2 : ¬ k = j := fun h => hj h.symm
  induction items with
  | nil => simp [deleteOwn, getOwn]
  | cons e rest ih =>
    obtain ⟨k', l'⟩ := e
    by_cases hk : k' = k
    · subst hk
      simp [deleteOwn, getOwn, hkj2, ih]
    · by_cases hkj : k' = j
      · subst hkj
        simp [deleteOwn, getOwn, hk]
      · simp [deleteOwn, getOwn, hk, hkj, ih]

theorem deleteOwn_of_getOwn_eq_none {items : Items} {k : String} (h : getOwn items k = none) :
    deleteOwn items k = items := by
  induction items with
  | nil => simp [deleteOwn]
  | cons e rest ih =>
    obtain ⟨k', l'⟩ := e
    by_cases hk : k' = k
    · simp [getOwn, hk] at h
    · simp [getOwn, hk] at h
      simp [deleteOwn, hk, ih h]

theorem getOwn_updateQuantity_self (items : Items) (k : String) (f : Int → Int) :
    getOwn (updateQuantity items k f) k =
      (getOwn items k).map (fun l => { l with quantity := f l.quantity }) := by
  induction items with
  | nil => simp [updateQuantity, getOwn]
  | cons e rest ih =>
    obtain ⟨k', l'⟩ := e
    by_cases hk : k' = k
    · simp [updateQuantity, getOwn, hk]
    · simp [updateQuantity, getOwn, hk, ih]

theorem getOwn_updateQuantity_of_ne (items : Items) {k j : String} (hj : j ≠ k)
    (f : Int → Int) : getOwn (updateQuantity items k f) j = getOwn items j := by
  have hkj2 : ¬ k = j := fun h => hj h.symm
  induction items with
  | nil => simp [updateQuantity, getOwn]
  | cons e rest ih =>
    obtain ⟨k', l'⟩ := e
    by_cases hk : k' = k
    · subst hk
      simp [updateQuantity, getOwn, hkj2, ih]
    · by_cases hkj : k' = j
      · subst hkj
        simp [updateQuantity, getOwn, hk]
      · simp [updateQuantity, getOwn, hk, hkj, ih]

theorem updateQuantity_of_getOwn_eq_none {items : Items} {k : String}
    (h : getOwn items k = none) (f : Int → Int) : updateQuantity items k f = items := by
  induction items with
  | nil => simp [updateQuantity]
  | cons e rest ih =>
    obtain ⟨k', l'⟩ := e
    by_cases hk : k' = k
    · simp [getOwn, hk] at h
    · simp [getOwn, hk] at h
      simp [updateQuantity, hk, ih h]

theorem keys_updateQuantity (items : Items) (k : String) (f : Int → Int) :
    (updateQuantity items k f).map Prod.fst = items.map Prod.fst := by
  induction items with
  | nil => simp [updateQuantity]
  | cons e rest ih =>
    obtain ⟨k', l'⟩ := e
    by_cases hk : k' = k
    · simp [updateQuantity, hk, ih]
    · simp [updateQuantity, hk, ih]

theorem mem_updateQuantity {items : Items} {k : String} {f : Int → Int}
    {e : String × CartLine} (h : e ∈ updateQuantity items k f) :
    (e ∈ items ∧ e.1 ≠ k) ∨
      (e.1 = k ∧ ∃ l, (k, l) ∈ items ∧ e.2 = { l with quantity := f l.quantity }) := by
  induction items with
  | nil => simp [updateQuantity] at h
  | cons e' rest ih =>
    obtain ⟨k', l'⟩ := e'
    by_cases hk : k' = k
    · simp only [updateQuantity, hk, if_true] at h
      rcases List.mem_cons.mp h with heq | hmem
      · subst heq
        exact Or.inr ⟨rfl, l', by simp [hk], rfl⟩
      · rcases ih hmem with h1 | ⟨h1, l, h2, h3⟩
        · exact Or.inl ⟨List.mem_cons_of_mem _ h1.1, h1.2⟩
        · exact Or.inr ⟨h1, l, List.mem_cons_of_mem _ h2, h3⟩
    · simp only [updateQuantity, hk, if_false] at h
      rcases List.mem_cons.mp h with heq | hmem
      · subst heq
        exact Or.inl ⟨List.mem_cons_self _ _, hk⟩
      · rcases ih hmem with h1 | ⟨h1, l, h2, h3⟩
        · exact Or.inl ⟨List.mem_cons_of_mem _ h1.1, h1.2⟩
        · exact Or.inr ⟨h1, l, List.mem_cons_of_mem _ h2, h3⟩

/-! ## Property reads -/

theorem getProp_of_getOwn_eq_some {items : Items} {k : String} {l : CartLine}
    (h : getOwn items k = some l) : getProp items k = .line l := by
  simp [getProp, h]

theorem truthy_getProp_of_getOwn_eq_some {items : Items} {k : String} {l : CartLine}
    (h : getOwn items k = some l) : (getProp items k).truthy = true := by
  simp [getProp, h, JsValue.truthy]

theorem truthy_getProp_iff (items : Items) (k : String) :
    (getProp items k).truthy = true ↔ getOwn items k ≠ none ∨ k ∈ objectPrototypeKeys := by
  unfold getProp
  cases h : getOwn items k with
  | some l => simp [JsValue.truthy]
  | none =>
    by_cases hk : k ∈ objectPrototypeKeys
    · simp [hk, JsValue.truthy]
    · simp [hk, JsValue.truthy]

/-! ## The case reducers, branch by branch -/

theorem addItem_of_truthy {s : CartState} {p : Payload}
    (h : (getProp s.items p.id).truthy = true) : addItem s p = s := by
  simp [addItem, h]

theorem addItem_of_absent {s : CartState} {p : Payload} (h : getOwn s.items p.id = none)
    (hp : p.id ∉ objectPrototypeKeys) :
    addItem s p = ⟨s.items ++ [(p.id, ⟨p.id, p.name, p.price, p.img, 1⟩)]⟩ := by
  have ht : (getProp s.items p.id).truthy = false := by
    cases hb : (getProp s.items p.id).truthy with
    | false => rfl
    | true =>
      rcases (truthy_getProp_iff s.items p.id).mp hb with h1 | h1
      · exact absurd h h1
      · exact absurd h1 hp
  simp [addItem, ht, setOwn_of_getOwn_eq_none h]

theorem increase_of_getOwn_eq_some {s : CartState} {i : String} {l : CartLine}
    (h : getOwn s.items i = some l) :
    increase s i = ⟨updateQuantity s.items i (fun q => roundInt (q + 1))⟩ := by
  simp [increase, getProp, h]

theorem increase_of_getOwn_eq_none {s : CartState} {i : String}
    (h : getOwn s.items i = none) : increase s i = s := by
  by_cases hk : i ∈ objectPrototypeKeys
  · simp [increase, getProp, h, hk]
  · simp [increase, getProp, h, hk]

theorem decrease_of_getOwn_eq_some {s : CartState} {i : String} {l : CartLine}
    (h : getOwn s.items i = some l) :
    decrease s i =
      if roundInt (l.quantity - 1) ≤ 0 then
        ⟨deleteOwn (updateQuantity s.items i (fun q => roundInt (q - 1))) i⟩
      else ⟨updateQuantity s.items i (fun q => roundInt (q - 1))⟩ := by
  simp [decrease, getProp, h]

theorem decrease_of_getOwn_eq_none {s : CartState} {i : String}
    (h : getOwn s.items i = none) : decrease s i = s := by
  by_cases hk : i ∈ objectPrototypeKeys
  · simp [decrease, getProp, h, hk]
  · simp [decrease, getProp, h, hk]

theorem remove_of_getOwn_eq_none {s : CartState} {i : String}
    (h : getOwn s.items i = none) : remove s i = s := by
  simp [remove, deleteOwn_of_getOwn_eq_none h]

theorem getOwn_decrease_of_ne (s : CartState) {i j : String} (hj : j ≠ i) :
    getOwn (decrease s i).items j = getOwn s.items j := by
  cases h : getOwn s.items i with
  | none => rw [decrease_of_getOwn_eq_none h]
  | some l =>
    rw [decrease_of_getOwn_eq_some h]
    by_cases hq : roundInt (l.quantity - 1) ≤ 0
    · simp only [hq, if_true]
      rw [getOwn_deleteOwn_of_ne _ hj, getOwn_updateQuantity_of_ne _ hj]
    · simp only [hq, if_false]
      rw [getOwn_updateQuantity_of_ne _ hj]

theorem getOwn_increase_of_ne (s : CartState) {i j : String} (hj : j ≠ i) :
    getOwn (increase s i).items j = getOwn s.items j := by
  cases h : getOwn s.items i with
  | none => rw [increase_of_getOwn_eq_none h]
  | some l =>
    rw [increase_of_getOwn_eq_some h]
    exact getOwn_updateQuantity_of_ne _ hj _

theorem foldl_addItem_of_truthy {s : CartState} {i : String}
    (h : (getProp s.items i).truthy = true) (ps : List Payload)
    (hps : ∀ q ∈ ps, q.id = i) : ps.foldl addItem s = s := by
  induction ps with
  | nil => rfl
  | cons q rest ih =>
    have hq : q.id = i := hps q (List.mem_cons_self _ _)
    have hstep : addItem s q = s := addItem_of_truthy (by rw [hq]; exact h)
    rw [List.foldl_cons, hstep]
    exact ih (fun r hr => hps r (List.mem_cons_of_mem _ hr))

/-! ## AddItem -/

/-- C1, as amended: for every cart state `s` and payload `p` whose id is not the
name of a member of `Object.prototype`, if `s` holds no line for `p.id` then
`addItem s p` is `s` with exactly one new line, created last under the key
`p.id`, with the id, name, price and img of `p` and quantity 1, and the line of
every other id is unchanged.  For every payload (whatever its id), if `s` already
holds a line for `p.id` then `addItem s p = s`. -/
theorem addItem_single_step (s : CartState) (p : Payload) :
    (getOwn s.items p.id = none → p.id ∉ objectPrototypeKeys →
      (addItem s p).items = s.items ++ [(p.id, ⟨p.id, p.name, p.price, p.img, 1⟩)] ∧
      getOwn (addItem s p).items p.id = some ⟨p.id, p.name, p.price, p.img, 1⟩ ∧
      ∀ j, j ≠ p.id → getOwn (addItem s p).items j = getOwn s.items j) ∧
    (getOwn s.items p.id ≠ none → addItem s p = s) := by
  constructor
  · intro h hp
    have hadd := addItem_of_absent h hp
    refine ⟨by rw [hadd], ?_, ?_⟩
    · rw [hadd]
      simp only [getOwn_append, h]
      simp [getOwn]
    · intro j hj
      have hj2 : ¬ p.id = j := fun e => hj e.symm
      rw [hadd]
      simp only [getOwn_append]
      cases getOwn s.items j with
      | none => simp [getOwn, hj2]
      | some l => simp
  · intro h
    exact addItem_of_truthy ((truthy_getProp_iff _ _).mpr (Or.inl h))

/-- C1, witness: on the empty cart the ZZ Plant payload creates the line with
quantity 1, and a second payload with the same id and other fields changes
nothing. -/
theorem addItem_single_step_witness :
    (getOwn initialState.items "zz" = none ∧ "zz" ∉ objectPrototypeKeys ∧
      (addItem initialState ⟨"zz", "ZZ Plant", JsNumber.ofRatio 1999 100, "zz.png"⟩).items =
        [("zz", ⟨"zz", "ZZ Plant", JsNumber.ofRatio 1999 100, "zz.png", 1⟩)]) ∧
    (getOwn (addItem initialState ⟨"zz", "ZZ Plant", JsNumber.ofRatio 1999 100, "zz.png"⟩).items "zz" ≠ none ∧
      addItem (addItem initialState ⟨"zz", "ZZ Plant", JsNumber.ofRatio 1999 100, "zz.png"⟩)
          ⟨"zz", "Other", JsNumber.ofRatio 5 1, "other.png"⟩ =
        addItem initialState ⟨"zz", "ZZ Plant", JsNumber.ofRatio 1999 100, "zz.png"⟩) :=
  ⟨⟨rfl, by decide,
      ((addItem_single_step initialState ⟨"zz", "ZZ Plant", JsNumber.ofRatio 1999 100, "zz.png"⟩).1 rfl
        (by decide)).1⟩,
    ⟨by simp [addItem, initialState, getProp, getOwn, setOwn, JsValue.truthy, objectPrototypeKeys],
      (addItem_single_step (addItem initialState ⟨"zz", "ZZ Plant", JsNumber.ofRatio 1999 100, "zz.png"⟩)
        ⟨"zz", "Other", JsNumber.ofRatio 5 1, "other.png"⟩).2
        (by simp [addItem, initialState, getProp, getOwn, setOwn, JsValue.truthy,
          objectPrototypeKeys])⟩⟩

/-- C1, counterexample: the empty cart holds no line for the id `constructor`,
yet `addItem` with a payload of that id stores nothing: `items["constructor"]`
reads the function inherited from `Object.prototype`, which is truthy. -/
theorem addItem_single_step_counterexample :
    getOwn initialState.items "constructor" = none ∧
    getOwn (addItem initialState ⟨"constructor", "Fern", JsNumber.ofRatio 5 1, "fern.png"⟩).items "constructor" =
      none ∧
    addItem initialState ⟨"constructor", "Fern", JsNumber.ofRatio 5 1, "fern.png"⟩ = initialState :=
  ⟨rfl, rfl, rfl⟩

/-- C3, as amended: for every id `i` that is not the name of a member of
`Object.prototype` and every non-empty sequence `p :: ps` of payloads that all
have the id `i`, adding them in order to the empty cart yields the cart with
exactly one line, stored under `i`, with quantity 1 and the name, price and img
of the first payload.  For every state and every two payloads with the same id
(whatever it is), `addItem (addItem s p) q = addItem s p`. -/
theorem addItem_same_id (p : Payload) :
    (p.id ∉ objectPrototypeKeys → ∀ ps : List Payload, (∀ q ∈ ps, q.id = p.id) →
      (p :: ps).foldl addItem initialState =
        ⟨[(p.id, ⟨p.id, p.name, p.price, p.img, 1⟩)]⟩) ∧
    (∀ (s : CartState) (q : Payload), q.id = p.id →
      addItem (addItem s p) q = addItem s p) := by
  constructor
  · intro hp ps hps
    have hadd : addItem initialState p = ⟨[(p.id, ⟨p.id, p.name, p.price, p.img, 1⟩)]⟩ := by
      have := addItem_of_absent (s := initialState) (p := p) rfl hp
      simpa [initialState] using this
    rw [List.foldl_cons, hadd]
    apply foldl_addItem_of_truthy _ ps hps
    simp [getProp, getOwn, JsValue.truthy]
  · intro s q hq
    cases hb : (getProp s.items p.id).truthy with
    | true =>
      rw [addItem_of_truthy hb]
      exact addItem_of_truthy (by rw [hq]; exact hb)
    | false =>
      apply addItem_of_truthy
      rw [hq]
      apply truthy_getProp_of_getOwn_eq_some (l := ⟨p.id, p.name, p.price, p.img, 1⟩)
      simp [addItem, hb, getOwn_setOwn_self]

/-- C3, witness: AddItem(zz); AddItem(zz) on the empty cart gives one line with
quantity 1, and the repeated add is absorbed. -/
theorem addItem_same_id_witness :
    ("zz" ∉ objectPrototypeKeys ∧
      (∀ q ∈ [(⟨"zz", "ZZ Plant", JsNumber.ofRatio 1999 100, "zz.png"⟩ : Payload)], q.id = "zz") ∧
      List.foldl addItem initialState
          [⟨"zz", "ZZ Plant", JsNumber.ofRatio 1999 100, "zz.png"⟩, ⟨"zz", "ZZ Plant", JsNumber.ofRatio 1999 100, "zz.png"⟩] =
        ⟨[("zz", ⟨"zz", "ZZ Plant", JsNumber.ofRatio 1999 100, "zz.png", 1⟩)]⟩) ∧
    addItem (addItem initialState ⟨"zz", "ZZ Plant", JsNumber.ofRatio 1999 100, "zz.png"⟩)
        ⟨"zz", "Other", JsNumber.ofRatio 5 1, "other.png"⟩ =
      addItem initialState ⟨"zz", "ZZ Plant", JsNumber.ofRatio 1999 100, "zz.png"⟩ :=
  ⟨⟨by decide, by simp,
      (addItem_same_id ⟨"zz", "ZZ Plant", JsNumber.ofRatio 1999 100, "zz.png"⟩).1 (by decide)
        [⟨"zz", "ZZ Plant", JsNumber.ofRatio 1999 100, "zz.png"⟩] (by simp)⟩,
    (addItem_same_id ⟨"zz", "ZZ Plant", JsNumber.ofRatio 1999 100, "zz.png"⟩).2 initialState
      ⟨"zz", "Other", JsNumber.ofRatio 5 1, "other.png"⟩ rfl⟩

/-- C3, counterexample: two payloads sharing the id `toString`, added in order
to the empty cart, leave the cart empty: there is no line under `toString`. -/
theorem addItem_same_id_counterexample :
    List.foldl addItem initialState
        [⟨"toString", "Fern", JsNumber.ofRatio 5 1, "fern.png"⟩, ⟨"toString", "Fern", JsNumber.ofRatio 5 1, "fern.png"⟩] =
      initialState ∧
    (List.foldl addItem initialState
        [⟨"toString", "Fern", JsNumber.ofRatio 5 1, "fern.png"⟩, ⟨"toString", "Fern", JsNumber.ofRatio 5 1, "fern.png"⟩]).items = [] ∧
    getOwn (List.foldl addItem initialState
        [⟨"toString", "Fern", JsNumber.ofRatio 5 1, "fern.png"⟩, ⟨"toString", "Fern", JsNumber.ofRatio 5 1, "fern.png"⟩]).items
      "toString" = none :=
  ⟨rfl, rfl, rfl⟩

/-! ## Increase, Decrease, Remove -/

theorem iterate_decrease_of_getOwn_eq_none {s : CartState} {i : String}
    (h : getOwn s.items i = none) (k : Nat) : (fun t => decrease t i)^[k] s = s := by
  induction k with
  | zero => rfl
  | succ k ih => rw [Function.iterate_succ_apply, decrease_of_getOwn_eq_none h, ih]

theorem getOwn_iterate_decrease_of_ne (i : String) {j : String} (hj : j ≠ i) (k : Nat)
    (s : CartState) :
    getOwn ((fun t => decrease t i)^[k] s).items j = getOwn s.items j := by
  induction k generalizing s with
  | zero => rfl
  | succ k ih => rw [Function.iterate_succ_apply, ih, getOwn_decrease_of_ne s hj]

theorem getOwn_iterate_increase_of_ne (i : String) {j : String} (hj : j ≠ i) (n : Nat)
    (s : CartState) :
    getOwn ((fun t => increase t i)^[n] s).items j = getOwn s.items j := by
  induction n generalizing s with
  | zero => rfl
  | succ n ih => rw [Function.iterate_succ_apply, ih, getOwn_increase_of_ne s hj]

theorem getOwn_iterate_increase (i : String) (n : Nat) (s : CartState) (l : CartLine)
    (h : getOwn s.items i = some l) (hlo : -2 ^ 53 ≤ l.quantity)
    (hhi : l.quantity + n ≤ 2 ^ 53) :
    getOwn ((fun t => increase t i)^[n] s).items i =
      some { l with quantity := l.quantity + n } := by
  induction n generalizing s l with
  | zero => simpa using h
  | succ n ih =>
    have hn : (0 : Int) ≤ (n : Int) := Int.ofNat_nonneg n
    have hround : roundInt (l.quantity + 1) = l.quantity + 1 :=
      roundInt_eq_self (by omega) (by push_cast at hhi; omega)
    have hstep : getOwn (increase s i).items i =
        some { l with quantity := l.quantity + 1 } := by
      rw [increase_of_getOwn_eq_some h]
      simp [getOwn_updateQuantity_self, h, hround]
    rw [Function.iterate_succ_apply,
      ih _ _ hstep (by simp only; omega) (by push_cast at hhi; simp only; omega)]
    simp only [Nat.cast_succ, Option.some.injEq, CartLine.mk.injEq, true_and]
    ring

theorem getOwn_iterate_decrease (i : String) (k : Nat) (s : CartState) (l : CartLine)
    (h : getOwn s.items i = some l) (hq : 1 ≤ l.quantity) (hhi : l.quantity ≤ 2 ^ 53) :
    getOwn ((fun t => decrease t i)^[k] s).items i =
      if (k : Int) < l.quantity then some { l with quantity := l.quantity - k } else none := by
  induction k generalizing s l with
  | zero =>
    have h0 : (0 : Int) < l.quantity := by omega
    simpa [h0] using h
  | succ k ih =>
    have hround : roundInt (l.quantity - 1) = l.quantity - 1 :=
      roundInt_eq_self (by omega) (by omega)
    rw [Function.iterate_succ_apply]
    by_cases h1 : l.quantity - 1 ≤ 0
    · have hdel : getOwn (decrease s i).items i = none := by
        rw [decrease_of_getOwn_eq_some h, hround]
        simp only [h1, if_true]
        exact getOwn_deleteOwn_self _ _
      have hlt : ¬ (((k + 1 : Nat) : Int) < l.quantity) := by push_cast; omega
      rw [iterate_decrease_of_getOwn_eq_none hdel, hdel, if_neg hlt]
    · have hstep : getOwn (decrease s i).items i =
          some { l with quantity := l.quantity - 1 } := by
        rw [decrease_of_getOwn_eq_some h, hround]
        simp only [h1, if_false]
        simp [getOwn_updateQuantity_self, h, hround]
      rw [ih _ _ hstep (by simp only; omega) (by simp only; omega)]
      by_cases h2 : (k : Int) < l.quantity - 1
      · have hlt : (((k + 1 : Nat) : Int) < l.quantity) := by push_cast; omega
        simp only [h2, hlt, if_true, Option.some.injEq, CartLine.mk.injEq, true_and]
        push_cast
        ring
      · have hlt : ¬ (((k + 1 : Nat) : Int) < l.quantity) := by push_cast; omega
        simp only [h2, hlt, if_false]

/-- C4, as amended: for every cart state holding a line `l` for `i` with quantity
at least 1 and at most `2^53`, and every `k`, after `k` calls of `decrease i` the
line for `i` is `l` with quantity `l.quantity - k` when `k < l.quantity` and there
is no line for `i` when `k ≥ l.quantity`.  For every state and quantity, the lines
of every other id are unchanged.  AddItem(zz) on the empty cart followed by three
Decrease(zz) leaves the empty cart: no zz line, the in-cart test false, and a
total item count of 0. -/
theorem decrease_repeated :
    (∀ (s : CartState) (i : String) (l : CartLine) (k : Nat),
      getOwn s.items i = some l → 1 ≤ l.quantity → l.quantity ≤ 2 ^ 53 →
        ((k : Int) < l.quantity →
          getOwn ((fun t => decrease t i)^[k] s).items i =
            some ⟨l.id, l.name, l.price, l.img, l.quantity - k⟩) ∧
        (l.quantity ≤ (k : Int) → getOwn ((fun t => decrease t i)^[k] s).items i = none)) ∧
    (∀ (s : CartState) (i : String) (k : Nat) (j : String), j ≠ i →
      getOwn ((fun t => decrease t i)^[k] s).items j = getOwn s.items j) ∧
    (getOwn ((fun t => decrease t "zz")^[3]
        (addItem initialState ⟨"zz", "ZZ Plant", JsNumber.ofRatio 1999 100, "zz.png"⟩)).items
        "zz" = none ∧
      alreadyInCart ⟨(fun t => decrease t "zz")^[3]
        (addItem initialState ⟨"zz", "ZZ Plant", JsNumber.ofRatio 1999 100, "zz.png"⟩)⟩ "zz" =
        false ∧
      selectTotalItems ⟨(fun t => decrease t "zz")^[3]
        (addItem initialState ⟨"zz", "ZZ Plant", JsNumber.ofRatio 1999 100, "zz.png"⟩)⟩ =
        .finite 0) := by
  refine ⟨?_, ?_, rfl, rfl, rfl⟩
  · intro s i l k h hq hhi
    have hmain := getOwn_iterate_decrease i k s l h hq hhi
    refine ⟨?_, ?_⟩
    · intro hk
      rw [hmain, if_pos hk]
    · intro hk
      rw [hmain, if_neg (by omega)]
  · intro s i k j hj
    exact getOwn_iterate_decrease_of_ne i hj k s

/-- C4, witness: a zz line of quantity 3 beside a snake line; one Decrease(zz)
leaves quantity 2, three leave no zz line, and the snake line stays. -/
theorem decrease_repeated_witness :
    getOwn ([("zz", ⟨"zz", "ZZ Plant", JsNumber.ofRatio 1999 100, "zz.png", 3⟩),
        ("snake", ⟨"snake", "Snake Plant", JsNumber.ofRatio 245 10, "snake.png", 1⟩)] : Items)
      "zz" = some ⟨"zz", "ZZ Plant", JsNumber.ofRatio 1999 100, "zz.png", 3⟩ ∧
    (1 : Int) ≤ 3 ∧ (3 : Int) ≤ 2 ^ 53 ∧ ((1 : Nat) : Int) < 3 ∧ (3 : Int) ≤ ((3 : Nat) : Int) ∧
    "snake" ≠ "zz" ∧
    getOwn ((fun t => decrease t "zz")^[1]
      ⟨[("zz", ⟨"zz", "ZZ Plant", JsNumber.ofRatio 1999 100, "zz.png", 3⟩),
        ("snake", ⟨"snake", "Snake Plant", JsNumber.ofRatio 245 10, "snake.png", 1⟩)]⟩).items
      "zz" = some ⟨"zz", "ZZ Plant", JsNumber.ofRatio 1999 100, "zz.png", 3 - ((1 : Nat) : Int)⟩ ∧
    getOwn ((fun t => decrease t "zz")^[3]
      ⟨[("zz", ⟨"zz", "ZZ Plant", JsNumber.ofRatio 1999 100, "zz.png", 3⟩),
        ("snake", ⟨"snake", "Snake Plant", JsNumber.ofRatio 245 10, "snake.png", 1⟩)]⟩).items
      "zz" = none ∧
    getOwn ((fun t => decrease t "zz")^[3]
      ⟨[("zz", ⟨"zz", "ZZ Plant", JsNumber.ofRatio 1999 100, "zz.png", 3⟩),
        ("snake", ⟨"snake", "Snake Plant", JsNumber.ofRatio 245 10, "snake.png", 1⟩)]⟩).items
      "snake" = some ⟨"snake", "Snake Plant", JsNumber.ofRatio 245 10, "snake.png", 1⟩ :=
  ⟨rfl, by decide, by decide, by decide, by decide, by decide,
    (decrease_repeated.1
      ⟨[("zz", ⟨"zz", "ZZ Plant", JsNumber.ofRatio 1999 100, "zz.png", 3⟩),
        ("snake", ⟨"snake", "Snake Plant", JsNumber.ofRatio 245 10, "snake.png", 1⟩)]⟩ "zz"
      ⟨"zz", "ZZ Plant", JsNumber.ofRatio 1999 100, "zz.png", 3⟩ 1 rfl (by decide)
      (by decide)).1 (by decide),
    (decrease_repeated.1
      ⟨[("zz", ⟨"zz", "ZZ Plant", JsNumber.ofRatio 1999 100, "zz.png", 3⟩),
        ("snake", ⟨"snake", "Snake Plant", JsNumber.ofRatio 245 10, "snake.png", 1⟩)]⟩ "zz"
      ⟨"zz", "ZZ Plant", JsNumber.ofRatio 1999 100, "zz.png", 3⟩ 3 rfl (by decide)
      (by decide)).2 (by decide),
    decrease_repeated.2.1
      ⟨[("zz", ⟨"zz", "ZZ Plant", JsNumber.ofRatio 1999 100, "zz.png", 3⟩),
        ("snake", ⟨"snake", "Snake Plant", JsNumber.ofRatio 245 10, "snake.png", 1⟩)]⟩ "zz" 3
      "snake" (by decide)⟩

/-- C4, counterexample: a zz line with quantity `2^53 + 2`.  One Decrease(zz)
stores the quantity `2^53`, not `2^53 + 1`: the difference is rounded to the
nearest binary64 value.  And on a zz line with quantity `2^54` Decrease(zz)
changes nothing, so the line is still there after `2^54` calls. -/
theorem decrease_repeated_counterexample :
    getOwn ((fun t => decrease t "zz")^[1]
      ⟨[("zz", ⟨"zz", "ZZ Plant", JsNumber.ofRatio 1999 100, "zz.png", 2 ^ 53 + 2⟩)]⟩).items
      "zz" = some ⟨"zz", "ZZ Plant", JsNumber.ofRatio 1999 100, "zz.png", 2 ^ 53⟩ ∧
    (2 : Int) ^ 53 ≠ (2 ^ 53 + 2) - ((1 : Nat) : Int) ∧
    decrease ⟨[("zz", ⟨"zz", "ZZ Plant", JsNumber.ofRatio 1999 100, "zz.png", 2 ^ 54⟩)]⟩ "zz" =
      ⟨[("zz", ⟨"zz", "ZZ Plant", JsNumber.ofRatio 1999 100, "zz.png", 2 ^ 54⟩)]⟩ ∧
    (2 : Int) ^ 54 ≤ ((2 ^ 54 : Nat) : Int) ∧
    getOwn ((fun t => decrease t "zz")^[2 ^ 54]
      ⟨[("zz", ⟨"zz", "ZZ Plant", JsNumber.ofRatio 1999 100, "zz.png", 2 ^ 54⟩)]⟩).items
      "zz" = some ⟨"zz", "ZZ Plant", JsNumber.ofRatio 1999 100, "zz.png", 2 ^ 54⟩ :=
  ⟨rfl, by decide, rfl, by decide,
    by rw [Function.iterate_fixed (f := fun t => decrease t "zz") rfl]; rfl⟩

/-- C5: for every cart state `s` and every id `i` for which `s` holds no line,
`increase`, `decrease` and `remove` each return `s` itself; the three reducers
are total functions with no error result. -/
theorem noop_on_absent_id (s : CartState) (i : String) (h : getOwn s.items i = none) :
    increase s i = s ∧ decrease s i = s ∧ remove s i = s :=
  ⟨increase_of_getOwn_eq_none h, decrease_of_getOwn_eq_none h, remove_of_getOwn_eq_none h⟩

/-- C5, witness: a cart holding only the zz line is unchanged by Increase,
Decrease and Remove of the absent id `snake`. -/
theorem noop_on_absent_id_witness :
    getOwn ([("zz", ⟨"zz", "ZZ Plant", JsNumber.ofRatio 1999 100, "zz.png", 2⟩)] : Items)
      "snake" = none ∧
    increase ⟨[("zz", ⟨"zz", "ZZ Plant", JsNumber.ofRatio 1999 100, "zz.png", 2⟩)]⟩ "snake" =
      ⟨[("zz", ⟨"zz", "ZZ Plant", JsNumber.ofRatio 1999 100, "zz.png", 2⟩)]⟩ ∧
    decrease ⟨[("zz", ⟨"zz", "ZZ Plant", JsNumber.ofRatio 1999 100, "zz.png", 2⟩)]⟩ "snake" =
      ⟨[("zz", ⟨"zz", "ZZ Plant", JsNumber.ofRatio 1999 100, "zz.png", 2⟩)]⟩ ∧
    remove ⟨[("zz", ⟨"zz", "ZZ Plant", JsNumber.ofRatio 1999 100, "zz.png", 2⟩)]⟩ "snake" =
      ⟨[("zz", ⟨"zz", "ZZ Plant", JsNumber.ofRatio 1999 100, "zz.png", 2⟩)]⟩ :=
  ⟨rfl,
    noop_on_absent_id ⟨[("zz", ⟨"zz", "ZZ Plant", JsNumber.ofRatio 1999 100, "zz.png", 2⟩)]⟩
      "snake" rfl⟩

/-- C6, as amended: for every cart state holding a line `l` for `i` with quantity
`q ≥ -2^53` and every `n` with `q + n ≤ 2^53`, after `n` calls of `increase i` the
line for `i` is `l` with quantity `q + n` (id, name, price and img unchanged).
For every state and quantity, the lines of every other id are unchanged.
AddItem(zz); Increase(zz); Increase(zz) from the empty cart gives the zz line
quantity 3. -/
theorem increase_repeated :
    (∀ (s : CartState) (i : String) (l : CartLine) (n : Nat),
      getOwn s.items i = some l → -2 ^ 53 ≤ l.quantity → l.quantity + n ≤ 2 ^ 53 →
        getOwn ((fun t => increase t i)^[n] s).items i =
          some ⟨l.id, l.name, l.price, l.img, l.quantity + n⟩) ∧
    (∀ (s : CartState) (i : String) (n : Nat) (j : String), j ≠ i →
      getOwn ((fun t => increase t i)^[n] s).items j = getOwn s.items j) ∧
    getOwn (increase (increase (addItem initialState
        ⟨"zz", "ZZ Plant", JsNumber.ofRatio 1999 100, "zz.png"⟩) "zz") "zz").items "zz" =
      some ⟨"zz", "ZZ Plant", JsNumber.ofRatio 1999 100, "zz.png", 3⟩ := by
  refine ⟨?_, ?_, rfl⟩
  · intro s i l n h hlo hhi
    exact getOwn_iterate_increase i n s l h hlo hhi
  · intro s i n j hj
    exact getOwn_iterate_increase_of_ne i hj n s

/-- C6, witness: a zz line of quantity 1 beside a snake line; two Increase(zz)
give quantity `1 + 2` and leave the snake line as it was. -/
theorem increase_repeated_witness :
    getOwn ([("zz", ⟨"zz", "ZZ Plant", JsNumber.ofRatio 1999 100, "zz.png", 1⟩),
        ("snake", ⟨"snake", "Snake Plant", JsNumber.ofRatio 245 10, "snake.png", 4⟩)] : Items)
      "zz" = some ⟨"zz", "ZZ Plant", JsNumber.ofRatio 1999 100, "zz.png", 1⟩ ∧
    (-2 ^ 53 : Int) ≤ 1 ∧ (1 : Int) + ((2 : Nat) : Int) ≤ 2 ^ 53 ∧ "snake" ≠ "zz" ∧
    getOwn ((fun t => increase t "zz")^[2]
      ⟨[("zz", ⟨"zz", "ZZ Plant", JsNumber.ofRatio 1999 100, "zz.png", 1⟩),
        ("snake", ⟨"snake", "Snake Plant", JsNumber.ofRatio 245 10, "snake.png", 4⟩)]⟩).items
      "zz" = some ⟨"zz", "ZZ Plant", JsNumber.ofRatio 1999 100, "zz.png", 1 + ((2 : Nat) : Int)⟩ ∧
    getOwn ((fun t => increase t "zz")^[2]
      ⟨[("zz", ⟨"zz", "ZZ Plant", JsNumber.ofRatio 1999 100, "zz.png", 1⟩),
        ("snake", ⟨"snake", "Snake Plant", JsNumber.ofRatio 245 10, "snake.png", 4⟩)]⟩).items
      "snake" = some ⟨"snake", "Snake Plant", JsNumber.ofRatio 245 10, "snake.png", 4⟩ :=
  ⟨rfl, by decide, by decide, by decide,
    increase_repeated.1
      ⟨[("zz", ⟨"zz", "ZZ Plant", JsNumber.ofRatio 1999 100, "zz.png", 1⟩),
        ("snake", ⟨"snake", "Snake Plant", JsNumber.ofRatio 245 10, "snake.png", 4⟩)]⟩ "zz"
      ⟨"zz", "ZZ Plant", JsNumber.ofRatio 1999 100, "zz.png", 1⟩ 2 rfl (by decide) (by decide),
    increase_repeated.2.1
      ⟨[("zz", ⟨"zz", "ZZ Plant", JsNumber.ofRatio 1999 100, "zz.png", 1⟩),
        ("snake", ⟨"snake", "Snake Plant", JsNumber.ofRatio 245 10, "snake.png", 4⟩)]⟩ "zz" 2
      "snake" (by decide)⟩

/-- C6, counterexample: a zz line with quantity `2^53`.  One Increase(zz) leaves
the quantity at `2^53`, not `2^53 + 1`: the sum is rounded to the nearest
binary64 value. -/
theorem increase_repeated_counterexample :
    getOwn ((fun t => increase t "zz")^[1]
      ⟨[("zz", ⟨"zz", "ZZ Plant", JsNumber.ofRatio 1999 100, "zz.png", 2 ^ 53⟩)]⟩).items
      "zz" = some ⟨"zz", "ZZ Plant", JsNumber.ofRatio 1999 100, "zz.png", 2 ^ 53⟩ ∧
    (2 : Int) ^ 53 ≠ 2 ^ 53 + ((1 : Nat) : Int) :=
  ⟨rfl, by decide⟩

/-- C7: for every cart state `s` and id `i`, `remove s i` holds no line for `i`,
whatever the quantity of the removed line, and for every other id `j` the line
for `j` in `remove s i` is the line for `j` in `s` (present exactly when it was,
every field unchanged). -/
theorem remove_frame (s : CartState) (i : String) :
    getOwn (remove s i).items i = none ∧
    ∀ j, j ≠ i → getOwn (remove s i).items j = getOwn s.items j :=
  ⟨getOwn_deleteOwn_self _ _, fun _ hj => getOwn_deleteOwn_of_ne _ hj⟩

/-- C7, witness: removing the zz line of quantity 5 leaves no zz line and keeps
the snake line. -/
theorem remove_frame_witness :
    getOwn (remove ⟨[("zz", ⟨"zz", "ZZ Plant", JsNumber.ofRatio 1999 100, "zz.png", 5⟩),
        ("snake", ⟨"snake", "Snake Plant", JsNumber.ofRatio 245 10, "snake.png", 4⟩)]⟩
      "zz").items "zz" = none ∧
    "snake" ≠ "zz" ∧
    getOwn (remove ⟨[("zz", ⟨"zz", "ZZ Plant", JsNumber.ofRatio 1999 100, "zz.png", 5⟩),
        ("snake", ⟨"snake", "Snake Plant", JsNumber.ofRatio 245 10, "snake.png", 4⟩)]⟩
      "zz").items "snake" =
      getOwn ([("zz", ⟨"zz", "ZZ Plant", JsNumber.ofRatio 1999 100, "zz.png", 5⟩),
        ("snake", ⟨"snake", "Snake Plant", JsNumber.ofRatio 245 10, "snake.png", 4⟩)] : Items)
        "snake" :=
  ⟨(remove_frame ⟨[("zz", ⟨"zz", "ZZ Plant", JsNumber.ofRatio 1999 100, "zz.png", 5⟩),
        ("snake", ⟨"snake", "Snake Plant", JsNumber.ofRatio 245 10, "snake.png", 4⟩)]⟩ "zz").1,
    by decide,
    (remove_frame ⟨[("zz", ⟨"zz", "ZZ Plant", JsNumber.ofRatio 1999 100, "zz.png", 5⟩),
        ("snake", ⟨"snake", "Snake Plant", JsNumber.ofRatio 245 10, "snake.png", 4⟩)]⟩ "zz").2
      "snake" (by decide)⟩

/-! ## The invariants along every run -/

theorem wellFormed_nil : WellFormed [] := by
  simp [WellFormed]

theorem wellFormed_addItem {s : CartState} (h : WellFormed s.items) (p : Payload) :
    WellFormed (addItem s p).items := by
  cases hb : (getProp s.items p.id).truthy with
  | true => rw [addItem_of_truthy hb]; exact h
  | false =>
    have hnone : getOwn s.items p.id = none := by
      cases hg : getOwn s.items p.id with
      | none => rfl
      | some l => rw [truthy_getProp_of_getOwn_eq_some hg] at hb; cases hb
    have hitems : (addItem s p).items =
        s.items ++ [(p.id, ⟨p.id, p.name, p.price, p.img, 1⟩)] := by
      simp [addItem, hb, setOwn_of_getOwn_eq_none hnone]
    rw [hitems]
    refine ⟨?_, ?_⟩
    · rw [List.map_append, List.nodup_append]
      refine ⟨h.1, by simp, ?_⟩
      intro a ha hb2
      simp only [List.map_cons, List.map_nil, List.mem_singleton] at hb2
      subst hb2
      exact (getOwn_eq_none_iff _ _).mp hnone ha
    · intro e he
      rcases List.mem_append.mp he with he | he
      · exact h.2 e he
      · simp only [List.mem_singleton] at he
        subst he
        exact ⟨rfl, le_refl _, by norm_num⟩

theorem wellFormed_deleteOwn {items : Items} (h : WellFormed items) (k : String) :
    WellFormed (deleteOwn items k) := by
  refine ⟨?_, fun e he => h.2 e (mem_of_mem_deleteOwn he).1⟩
  rw [keys_deleteOwn]
  exact h.1.filter _

theorem wellFormed_increase {s : CartState} (h : WellFormed s.items) (i : String) :
    WellFormed (increase s i).items := by
  cases hg : getOwn s.items i with
  | none => rw [increase_of_getOwn_eq_none hg]; exact h
  | some l =>
    rw [increase_of_getOwn_eq_some hg]
    refine ⟨by rw [keys_updateQuantity]; exact h.1, ?_⟩
    intro e he
    rcases mem_updateQuantity he with ⟨hmem, _⟩ | ⟨hk, l', hmem, hval⟩
    · exact h.2 e hmem
    · have h2 := h.2 (i, l') hmem
      simp only at h2
      rw [hval, hk]
      refine ⟨h2.1, ?_⟩
      simp only
      rcases lt_or_ge l'.quantity (2 ^ 53) with hlt | hge
      · rw [roundInt_eq_self (by omega) (by omega)]
        omega
      · have hq : l'.quantity = 2 ^ 53 := le_antisymm h2.2.2 hge
        rw [hq, roundInt_two_pow_53_add_one]
        omega

theorem wellFormed_decrease {s : CartState} (h : WellFormed s.items) (i : String) :
    WellFormed (decrease s i).items := by
  cases hg : getOwn s.items i with
  | none => rw [decrease_of_getOwn_eq_none hg]; exact h
  | some l =>
    rw [decrease_of_getOwn_eq_some hg]
    have hl := h.2 (i, l) (mem_of_getOwn_eq_some hg)
    simp only at hl
    have hround : roundInt (l.quantity - 1) = l.quantity - 1 :=
      roundInt_eq_self (by omega) (by omega)
    rw [hround]
    by_cases hq : l.quantity - 1 ≤ 0
    · simp only [hq, if_true]
      refine ⟨?_, ?_⟩
      · rw [keys_deleteOwn, keys_updateQuantity]
        exact h.1.filter _
      · intro e he
        have hd := mem_of_mem_deleteOwn he
        rcases mem_updateQuantity hd.1 with ⟨hmem, _⟩ | ⟨hk, _⟩
        · exact h.2 e hmem
        · exact absurd hk hd.2
    · simp only [hq, if_false]
      refine ⟨by rw [keys_updateQuantity]; exact h.1, ?_⟩
      intro e he
      rcases mem_updateQuantity he with ⟨hmem, _⟩ | ⟨hk, l', hmem, hval⟩
      · exact h.2 e hmem
      · have hl : l' = l := by
          have := getOwn_eq_some_of_mem h.1 hmem
          rw [hg] at this
          exact (Option.some.inj this).symm
        have h2 := h.2 (i, l') hmem
        simp only at h2
        rw [hval, hk, hl]
        rw [hl] at h2
        refine ⟨h2.1, ?_⟩
        simp only
        rw [hround]
        omega

theorem wellFormed_reducer {s : CartState} (h : WellFormed s.items) (a : Action) :
    WellFormed (reducer s a).items := by
  cases a with
  | addItem p => exact wellFormed_addItem h p
  | increase i => exact wellFormed_increase h i
  | decrease i => exact wellFormed_decrease h i
  | remove i => exact wellFormed_deleteOwn h i
  | clear => exact wellFormed_nil

theorem wellFormed_dispatchAll {s : CartState} (h : WellFormed s.items)
    (actions : List Action) : WellFormed (dispatchAll s actions).items := by
  induction actions generalizing s with
  | nil => exact h
  | cons a rest ih => exact ih (wellFormed_reducer h a)

/-- C2: in every cart state reached from the initial empty state by a finite
sequence of addItem, increase, decrease, remove and clear actions with arbitrary
payloads, every stored line has quantity at least 1 (read through its key or
taken from the stored entries), and a further `decrease` of any id leaves no
stored line with quantity 0 or less. -/
theorem quantity_floor (actions : List Action) :
    (∀ e ∈ (dispatchAll initialState actions).items, 1 ≤ e.2.quantity) ∧
    (∀ (i : String) (l : CartLine),
      getOwn (dispatchAll initialState actions).items i = some l → 1 ≤ l.quantity) ∧
    (∀ (i : String), ∀ e ∈ (decrease (dispatchAll initialState actions) i).items,
      ¬ e.2.quantity ≤ 0) := by
  have hwf : WellFormed (dispatchAll initialState actions).items :=
    wellFormed_dispatchAll wellFormed_nil actions
  refine ⟨fun e he => (hwf.2 e he).2.1, ?_, ?_⟩
  · intro i l hl
    exact (hwf.2 (i, l) (mem_of_getOwn_eq_some hl)).2.1
  · intro i e he
    have := ((wellFormed_decrease hwf i).2 e he).2.1
    omega

/-- C2, witness: after AddItem(zz), Increase(zz), AddItem(snake), Decrease(zz),
Decrease(snake) the cart holds the zz line alone, with quantity 1. -/
theorem quantity_floor_witness :
    ((("zz", ⟨"zz", "ZZ Plant", JsNumber.ofRatio 1999 100, "zz.png", 1⟩) : String × CartLine) ∈
      (dispatchAll initialState
        [.addItem ⟨"zz", "ZZ Plant", JsNumber.ofRatio 1999 100, "zz.png"⟩, .increase "zz",
          .addItem ⟨"snake", "Snake Plant", JsNumber.ofRatio 245 10, "snake.png"⟩, .decrease "zz",
          .decrease "snake"]).items) ∧
    (1 : Int) ≤ (⟨"zz", "ZZ Plant", JsNumber.ofRatio 1999 100, "zz.png", 1⟩ : CartLine).quantity :=
  ⟨List.mem_singleton.mpr rfl,
    (quantity_floor
        [.addItem ⟨"zz", "ZZ Plant", JsNumber.ofRatio 1999 100, "zz.png"⟩, .increase "zz",
          .addItem ⟨"snake", "Snake Plant", JsNumber.ofRatio 245 10, "snake.png"⟩, .decrease "zz",
          .decrease "snake"]).1
      ("zz", ⟨"zz", "ZZ Plant", JsNumber.ofRatio 1999 100, "zz.png", 1⟩) (List.mem_singleton.mpr rfl)⟩

/-! ## Selectors -/

theorem objectValues_perm (items : Items) :
    List.Perm (objectValues items) (items.map Prod.snd) := by
  have hsplit : List.Perm
      ((items.filterMap (fun e => (arrayIndex? e.1).map (fun n => (n, e.2)))).map Prod.snd ++
        (items.filter (fun e => (arrayIndex? e.1).isNone)).map Prod.snd)
      (items.map Prod.snd) := by
    induction items with
    | nil => simp
    | cons e rest ih =>
      cases hidx : arrayIndex? e.1 with
      | none =>
        simp only [List.filterMap_cons, hidx, Option.map_none', List.filter_cons,
          Option.isNone_none, if_true, List.map_cons]
        exact List.perm_middle.trans (List.Perm.cons _ ih)
      | some n =>
        simp only [List.filterMap_cons, hidx, Option.map_some', List.filter_cons,
          Option.isNone_some, List.map_cons, List.cons_append]
        exact List.Perm.cons _ (by simpa using ih)
  unfold objectValues
  exact (List.Perm.append_right _ ((List.perm_insertionSort _ _).map Prod.snd)).trans hsplit

theorem sum_objectValues (items : Items) (f : CartLine → Int) :
    ((objectValues items).map f).sum = (items.map (fun e => f e.2)).sum := by
  rw [((objectValues_perm items).map f).sum_eq, List.map_map]
  rfl

theorem exists_of_mem_objectValues {items : Items} {l : CartLine}
    (h : l ∈ objectValues items) : ∃ e ∈ items, e.2 = l := by
  have := (objectValues_perm items).mem_iff.mp h
  obtain ⟨e, he, rfl⟩ := List.mem_map.mp this
  exact ⟨e, he, rfl⟩

theorem selectTotalItems_eq {s : RootState} (h : CountInRange s.cart.items) :
    selectTotalItems s = .finite (specTotalItemCount s.cart.items * 2 ^ 1074) := by
  have hsum : ((objectValues s.cart.items).map (fun it => it.quantity * 2 ^ 1074)).sum =
      specTotalItemCount s.cart.items * 2 ^ 1074 := by
    rw [sum_objectValues, specTotalItemCount, ← List.sum_map_mul_right]
  have hfold := foldl_add_ofExact (g := 1074) (by norm_num)
    (fun it : CartLine => JsNumber.ofInt it.quantity)
    (fun it : CartLine => it.quantity * 2 ^ 1074) (objectValues s.cart.items)
    (by
      intro l hl
      obtain ⟨e, he, rfl⟩ := exists_of_mem_objectValues hl
      exact ⟨mul_nonneg (h.1 e he) (by positivity), Dvd.intro_left _ rfl, rfl⟩)
    0 (le_refl _) (dvd_zero _)
    (by
      rw [hsum, zero_add]
      exact mul_le_mul_of_nonneg_right h.2 (by positivity))
  rw [hsum, zero_add] at hfold
  exact hfold

theorem selectTotalCost_eq {s : RootState} {g : Nat} (h : CostOnGrid g s.cart.items) :
    selectTotalCost s = .finite (specTotalCost s.cart.items) := by
  have hsum : ((objectValues s.cart.items).map (fun it => it.quantity * it.price.units)).sum =
      specTotalCost s.cart.items := by
    rw [sum_objectValues, specTotalCost]
  have hfold := foldl_add_ofExact (g := g) h.1
    (fun it : CartLine => JsNumber.mulInt it.quantity it.price)
    (fun it : CartLine => it.quantity * it.price.units) (objectValues s.cart.items)
    (by
      intro l hl
      obtain ⟨e, he, rfl⟩ := exists_of_mem_objectValues hl
      obtain ⟨hq, p, hp, hprice⟩ := h.2.1 e he
      simp only [hprice, JsNumber.units, JsNumber.mulInt]
      exact ⟨mul_nonneg hq (mul_nonneg hp (by positivity)),
        Dvd.dvd.mul_left (Dvd.intro_left _ rfl) _, trivial⟩)
    0 (le_refl _) (dvd_zero _)
    (by
      rw [hsum, zero_add]
      exact h.2.2)
  rw [hsum, zero_add] at hfold
  exact hfold

theorem countInRange_of_perm {xs ys : Items} (hp : List.Perm xs ys) (h : CountInRange xs) :
    CountInRange ys := by
  refine ⟨fun e he => h.1 e (hp.mem_iff.mpr he), ?_⟩
  have : specTotalItemCount ys = specTotalItemCount xs := by
    unfold specTotalItemCount
    exact ((hp.map (fun e : String × CartLine => e.2.quantity)).sum_eq).symm
  rw [this]
  exact h.2

theorem costOnGrid_of_perm {g : Nat} {xs ys : Items} (hp : List.Perm xs ys)
    (h : CostOnGrid g xs) : CostOnGrid g ys := by
  refine ⟨h.1, fun e he => h.2.1 e (hp.mem_iff.mpr he), ?_⟩
  have : specTotalCost ys = specTotalCost xs := by
    unfold specTotalCost
    exact ((hp.map
      (fun e : String × CartLine => e.2.quantity * e.2.price.units)).sum_eq).symm
  rw [this]
  exact h.2.2

theorem perm_of_getOwn_eq {xs ys : Items} (hx : (xs.map Prod.fst).Nodup)
    (hy : (ys.map Prod.fst).Nodup) (h : ∀ i, getOwn xs i = getOwn ys i) :
    List.Perm xs ys := by
  rw [List.perm_ext_iff_of_nodup (List.Nodup.of_map _ hx) (List.Nodup.of_map _ hy)]
  intro e
  obtain ⟨k, l⟩ := e
  constructor
  · intro he
    exact mem_of_getOwn_eq_some ((h k).symm.trans (getOwn_eq_some_of_mem hx he))
  · intro he
    exact mem_of_getOwn_eq_some ((h k).trans (getOwn_eq_some_of_mem hy he))

/-- C8, as amended: for every state whose quantities are non-negative with exact
sum at most `2^53`, `selectTotalItems` is the exact sum of `quantity` over the
stored lines; for every state whose quantities are non-negative, whose prices are
finite non-negative multiples of a common step `2^g` units and whose exact total
is at most `2^53` steps, `selectTotalCost` is the exact sum of `quantity * price`;
both are 0 on the empty cart; under those conditions two states whose stored
lines are a rearrangement of one another, and two states with the same mapping
from id to line, have equal totals.  A cart holding only the zz line at price
19.99 has item count 1 and cost 19.99 at quantity 1, and cost 59.97 at quantity
3 (each the binary64 value of the literal). -/
theorem totals_correct :
    (∀ s : RootState, CountInRange s.cart.items →
      selectTotalItems s = .finite (specTotalItemCount s.cart.items * 2 ^ 1074)) ∧
    (∀ (s : RootState) (g : Nat), CostOnGrid g s.cart.items →
      selectTotalCost s = .finite (specTotalCost s.cart.items)) ∧
    (selectTotalItems ⟨initialState⟩ = .finite 0 ∧
      selectTotalCost ⟨initialState⟩ = .finite 0) ∧
    (∀ s t : RootState, List.Perm s.cart.items t.cart.items →
      (CountInRange s.cart.items → selectTotalItems s = selectTotalItems t) ∧
      (∀ g : Nat, CostOnGrid g s.cart.items → selectTotalCost s = selectTotalCost t)) ∧
    (∀ s t : RootState, (s.cart.items.map Prod.fst).Nodup → (t.cart.items.map Prod.fst).Nodup →
      (∀ i, getOwn s.cart.items i = getOwn t.cart.items i) →
      (CountInRange s.cart.items → selectTotalItems s = selectTotalItems t) ∧
      (∀ g : Nat, CostOnGrid g s.cart.items → selectTotalCost s = selectTotalCost t)) ∧
    (selectTotalItems
        ⟨⟨[("zz", ⟨"zz", "ZZ Plant", JsNumber.ofRatio 1999 100, "zz.png", 1⟩)]⟩⟩ =
        .finite (1 * 2 ^ 1074) ∧
      selectTotalCost
        ⟨⟨[("zz", ⟨"zz", "ZZ Plant", JsNumber.ofRatio 1999 100, "zz.png", 1⟩)]⟩⟩ =
        JsNumber.ofRatio 1999 100 ∧
      selectTotalCost
        ⟨⟨[("zz", ⟨"zz", "ZZ Plant", JsNumber.ofRatio 1999 100, "zz.png", 3⟩)]⟩⟩ =
        JsNumber.ofRatio 5997 100) := by
  have hperm : ∀ s t : RootState, List.Perm s.cart.items t.cart.items →
      (CountInRange s.cart.items → selectTotalItems s = selectTotalItems t) ∧
      (∀ g : Nat, CostOnGrid g s.cart.items → selectTotalCost s = selectTotalCost t) := by
    intro s t hp
    constructor
    · intro h
      rw [selectTotalItems_eq h, selectTotalItems_eq (countInRange_of_perm hp h)]
      have : specTotalItemCount t.cart.items = specTotalItemCount s.cart.items := by
        unfold specTotalItemCount
        exact ((hp.map (fun e : String × CartLine => e.2.quantity)).sum_eq).symm
      rw [this]
    · intro g h
      rw [selectTotalCost_eq h, selectTotalCost_eq (costOnGrid_of_perm hp h)]
      have : specTotalCost t.cart.items = specTotalCost s.cart.items := by
        unfold specTotalCost
        exact ((hp.map
          (fun e : String × CartLine => e.2.quantity * e.2.price.units)).sum_eq).symm
      rw [this]
  refine ⟨fun s h => selectTotalItems_eq h, fun s g h => selectTotalCost_eq h, ⟨rfl, rfl⟩,
    hperm, ?_, ?_, ?_, ?_⟩
  · intro s t hs ht h
    exact hperm s t (perm_of_getOwn_eq hs ht h)
  · decide!
  · decide!
  · decide!

/-- C8, witness: two Monstera (34) and one Peace Lily (22), stored in the two
possible orders: item count 3 and cost 90 exactly, the same in both orders. -/
theorem totals_correct_witness :
    CountInRange
      [("monstera", ⟨"monstera", "Monstera Deliciosa", .finite (34 * 2 ^ 1074), "m.png", 2⟩),
        ("peace", ⟨"peace", "Peace Lily", .finite (22 * 2 ^ 1074), "p.png", 1⟩)] ∧
    CostOnGrid 1074
      [("monstera", ⟨"monstera", "Monstera Deliciosa", .finite (34 * 2 ^ 1074), "m.png", 2⟩),
        ("peace", ⟨"peace", "Peace Lily", .finite (22 * 2 ^ 1074), "p.png", 1⟩)] ∧
    List.Perm
      ([("monstera", ⟨"monstera", "Monstera Deliciosa", .finite (34 * 2 ^ 1074), "m.png", 2⟩),
        ("peace", ⟨"peace", "Peace Lily", .finite (22 * 2 ^ 1074), "p.png", 1⟩)] : Items)
      [("peace", ⟨"peace", "Peace Lily", .finite (22 * 2 ^ 1074), "p.png", 1⟩),
        ("monstera", ⟨"monstera", "Monstera Deliciosa", .finite (34 * 2 ^ 1074), "m.png", 2⟩)] ∧
    selectTotalItems
      ⟨⟨[("monstera", ⟨"monstera", "Monstera Deliciosa", .finite (34 * 2 ^ 1074), "m.png", 2⟩),
        ("peace", ⟨"peace", "Peace Lily", .finite (22 * 2 ^ 1074), "p.png", 1⟩)]⟩⟩ =
      .finite (specTotalItemCount
        [("monstera", ⟨"monstera", "Monstera Deliciosa", .finite (34 * 2 ^ 1074), "m.png", 2⟩),
          ("peace", ⟨"peace", "Peace Lily", .finite (22 * 2 ^ 1074), "p.png", 1⟩)] * 2 ^ 1074) ∧
    selectTotalCost
      ⟨⟨[("monstera", ⟨"monstera", "Monstera Deliciosa", .finite (34 * 2 ^ 1074), "m.png", 2⟩),
        ("peace", ⟨"peace", "Peace Lily", .finite (22 * 2 ^ 1074), "p.png", 1⟩)]⟩⟩ =
      .finite (specTotalCost
        [("monstera", ⟨"monstera", "Monstera Deliciosa", .finite (34 * 2 ^ 1074), "m.png", 2⟩),
          ("peace", ⟨"peace", "Peace Lily", .finite (22 * 2 ^ 1074), "p.png", 1⟩)]) ∧
    selectTotalCost
      ⟨⟨[("monstera", ⟨"monstera", "Monstera Deliciosa", .finite (34 * 2 ^ 1074), "m.png", 2⟩),
        ("peace", ⟨"peace", "Peace Lily", .finite (22 * 2 ^ 1074), "p.png", 1⟩)]⟩⟩ =
      selectTotalCost
        ⟨⟨[("peace", ⟨"peace", "Peace Lily", .finite (22 * 2 ^ 1074), "p.png", 1⟩),
          ("monstera",
            ⟨"monstera", "Monstera Deliciosa", .finite (34 * 2 ^ 1074), "m.png", 2⟩)]⟩⟩ :=
  have hcount : CountInRange
      [("monstera", ⟨"monstera", "Monstera Deliciosa", .finite (34 * 2 ^ 1074), "m.png", 2⟩),
        ("peace", ⟨"peace", "Peace Lily", .finite (22 * 2 ^ 1074), "p.png", 1⟩)] := by
    refine ⟨?_, by decide⟩
    intro e he
    simp only [List.mem_cons, List.mem_singleton, List.not_mem_nil, or_false] at he
    rcases he with rfl | rfl <;> decide
  have hcost : CostOnGrid 1074
      [("monstera", ⟨"monstera", "Monstera Deliciosa", .finite (34 * 2 ^ 1074), "m.png", 2⟩),
        ("peace", ⟨"peace", "Peace Lily", .finite (22 * 2 ^ 1074), "p.png", 1⟩)] := by
    refine ⟨by decide, ?_, by decide!⟩
    intro e he
    simp only [List.mem_cons, List.mem_singleton, List.not_mem_nil, or_false] at he
    rcases he with rfl | rfl
    · exact ⟨by decide, 34, by decide, rfl⟩
    · exact ⟨by decide, 22, by decide, rfl⟩
  ⟨hcount, hcost, List.Perm.swap _ _ _, totals_correct.1 _ hcount, totals_correct.2.1 _ 1074 hcost,
    (totals_correct.2.2.2.1 _ _ (List.Perm.swap _ _ _)).2 1074 hcost⟩

/-- C8, counterexample: the cart with 7 ZZ Plant (19.99), 1 Snake Plant (24.5)
and 26 Monstera (34), reached from the empty cart by clicks, has total cost
1048.43; the same three lines with Snake Plant added last have total cost
1048.4299999999998.  With 2 ZZ Plant and 1 Snake Plant the total cost is
64.47999999999999, not 64.48, and with 3 ZZ Plant it is not the exact sum of
`quantity * price`.  With quantities `2^53` and 1 the item count is `2^53`. -/
theorem totals_correct_counterexample :
    (dispatchAll initialState
        ([.addItem ⟨"zz", "ZZ Plant", JsNumber.ofRatio 1999 100, "zz.png"⟩] ++
          List.replicate 6 (.increase "zz") ++
          [.addItem ⟨"snake", "Snake Plant", JsNumber.ofRatio 245 10, "snake.png"⟩,
            .addItem ⟨"monstera", "Monstera Deliciosa", JsNumber.ofRatio 34 1, "m.png"⟩] ++
          List.replicate 25 (.increase "monstera")) =
      ⟨[("zz", ⟨"zz", "ZZ Plant", JsNumber.ofRatio 1999 100, "zz.png", 7⟩),
        ("snake", ⟨"snake", "Snake Plant", JsNumber.ofRatio 245 10, "snake.png", 1⟩),
        ("monstera", ⟨"monstera", "Monstera Deliciosa", JsNumber.ofRatio 34 1, "m.png", 26⟩)]⟩) ∧
    List.Perm
      ([("zz", ⟨"zz", "ZZ Plant", JsNumber.ofRatio 1999 100, "zz.png", 7⟩),
        ("snake", ⟨"snake", "Snake Plant", JsNumber.ofRatio 245 10, "snake.png", 1⟩),
        ("monstera", ⟨"monstera", "Monstera Deliciosa", JsNumber.ofRatio 34 1, "m.png", 26⟩)] :
        Items)
      [("zz", ⟨"zz", "ZZ Plant", JsNumber.ofRatio 1999 100, "zz.png", 7⟩),
        ("monstera", ⟨"monstera", "Monstera Deliciosa", JsNumber.ofRatio 34 1, "m.png", 26⟩),
        ("snake", ⟨"snake", "Snake Plant", JsNumber.ofRatio 245 10, "snake.png", 1⟩)] ∧
    selectTotalCost
      ⟨⟨[("zz", ⟨"zz", "ZZ Plant", JsNumber.ofRatio 1999 100, "zz.png", 7⟩),
        ("snake", ⟨"snake", "Snake Plant", JsNumber.ofRatio 245 10, "snake.png", 1⟩),
        ("monstera", ⟨"monstera", "Monstera Deliciosa", JsNumber.ofRatio 34 1, "m.png", 26⟩)]⟩⟩ =
      JsNumber.ofRatio 104843 100 ∧
    selectTotalCost
      ⟨⟨[("zz", ⟨"zz", "ZZ Plant", JsNumber.ofRatio 1999 100, "zz.png", 7⟩),
        ("monstera", ⟨"monstera", "Monstera Deliciosa", JsNumber.ofRatio 34 1, "m.png", 26⟩),
        ("snake", ⟨"snake", "Snake Plant", JsNumber.ofRatio 245 10, "snake.png", 1⟩)]⟩⟩ =
      JsNumber.ofRatio 10484299999999998 10000000000000 ∧
    JsNumber.ofRatio 104843 100 ≠ JsNumber.ofRatio 10484299999999998 10000000000000 ∧
    selectTotalCost
      ⟨⟨[("zz", ⟨"zz", "ZZ Plant", JsNumber.ofRatio 1999 100, "zz.png", 2⟩),
        ("snake", ⟨"snake", "Snake Plant", JsNumber.ofRatio 245 10, "snake.png", 1⟩)]⟩⟩ =
      JsNumber.ofRatio 6447999999999999 100000000000000 ∧
    JsNumber.ofRatio 6447999999999999 100000000000000 ≠ JsNumber.ofRatio 6448 100 ∧
    selectTotalCost
      ⟨⟨[("zz", ⟨"zz", "ZZ Plant", JsNumber.ofRatio 1999 100, "zz.png", 3⟩)]⟩⟩ ≠
      .finite (specTotalCost
        [("zz", ⟨"zz", "ZZ Plant", JsNumber.ofRatio 1999 100, "zz.png", 3⟩)]) ∧
    selectTotalItems
      ⟨⟨[("zz", ⟨"zz", "ZZ Plant", JsNumber.ofRatio 1999 100, "zz.png", 2 ^ 53⟩),
        ("snake", ⟨"snake", "Snake Plant", JsNumber.ofRatio 245 10, "snake.png", 1⟩)]⟩⟩ =
      .finite (2 ^ 53 * 2 ^ 1074) ∧
    specTotalItemCount
      [("zz", ⟨"zz", "ZZ Plant", JsNumber.ofRatio 1999 100, "zz.png", 2 ^ 53⟩),
        ("snake", ⟨"snake", "Snake Plant", JsNumber.ofRatio 245 10, "snake.png", 1⟩)] =
      2 ^ 53 + 1 :=
  ⟨by decide!, List.Perm.cons _ (List.Perm.swap _ _ _), by decide!, by decide!, by decide!,
    by decide!, by decide!, by decide!, by decide!, by decide!⟩

/-- C9, as amended: the in-cart test `Boolean(items[i])` is true whenever the
cart holds a line for `i`; for every id `i` that is not the name of a member of
`Object.prototype` it is true exactly when the cart holds a line for `i`, and in
particular false on the empty cart; it is the guard of `addItem`; and it is true
for `p.id` right after `addItem s p`, for every payload `p`. -/
theorem alreadyInCart_iff (s : RootState) (i : String) :
    (getOwn s.cart.items i ≠ none → alreadyInCart s i = true) ∧
    (i ∉ objectPrototypeKeys →
      (alreadyInCart s i = true ↔ getOwn s.cart.items i ≠ none)) ∧
    (i ∉ objectPrototypeKeys → alreadyInCart ⟨initialState⟩ i = false) ∧
    (∀ p : Payload, alreadyInCart s p.id = true → addItem s.cart p = s.cart) ∧
    (∀ p : Payload, alreadyInCart ⟨addItem s.cart p⟩ p.id = true) := by
  refine ⟨?_, ?_, ?_, ?_, ?_⟩
  · intro h
    exact (truthy_getProp_iff _ _).mpr (Or.inl h)
  · intro hi
    constructor
    · intro h
      rcases (truthy_getProp_iff _ _).mp h with h1 | h1
      · exact h1
      · exact absurd h1 hi
    · intro h
      exact (truthy_getProp_iff _ _).mpr (Or.inl h)
  · intro hi
    simp [alreadyInCart, selectItems, initialState, getProp, getOwn, hi, JsValue.truthy]
  · intro p h
    exact addItem_of_truthy h
  · intro p
    cases hb : (getProp s.cart.items p.id).truthy with
    | true =>
      rw [addItem_of_truthy hb]
      exact hb
    | false =>
      apply truthy_getProp_of_getOwn_eq_some (l := ⟨p.id, p.name, p.price, p.img, 1⟩)
      simp [selectItems, addItem, hb, getOwn_setOwn_self]

/-- C9, witness: with only the zz line stored, the test is true for `zz` and
false for `snake`, and false for `zz` on the empty cart. -/
theorem alreadyInCart_iff_witness :
    (getOwn ([("zz", ⟨"zz", "ZZ Plant", JsNumber.ofRatio 1999 100, "zz.png", 1⟩)] : Items) "zz" ≠ none ∧
      alreadyInCart ⟨⟨[("zz", ⟨"zz", "ZZ Plant", JsNumber.ofRatio 1999 100, "zz.png", 1⟩)]⟩⟩ "zz" = true) ∧
    ("snake" ∉ objectPrototypeKeys ∧
      (alreadyInCart ⟨⟨[("zz", ⟨"zz", "ZZ Plant", JsNumber.ofRatio 1999 100, "zz.png", 1⟩)]⟩⟩ "snake" = true ↔
        getOwn ([("zz", ⟨"zz", "ZZ Plant", JsNumber.ofRatio 1999 100, "zz.png", 1⟩)] : Items) "snake" ≠
          none)) ∧
    ("zz" ∉ objectPrototypeKeys ∧ alreadyInCart ⟨initialState⟩ "zz" = false) :=
  ⟨⟨by simp [getOwn],
      (alreadyInCart_iff ⟨⟨[("zz", ⟨"zz", "ZZ Plant", JsNumber.ofRatio 1999 100, "zz.png", 1⟩)]⟩⟩ "zz").1
        (by simp [getOwn])⟩,
    ⟨by decide,
      (alreadyInCart_iff ⟨⟨[("zz", ⟨"zz", "ZZ Plant", JsNumber.ofRatio 1999 100, "zz.png", 1⟩)]⟩⟩
        "snake").2.1 (by decide)⟩,
    ⟨by decide, (alreadyInCart_iff ⟨initialState⟩ "zz").2.2.1 (by decide)⟩⟩

/-- C9, counterexample: on the empty cart, which holds no line at all, the
in-cart test is true for the id `constructor`. -/
theorem alreadyInCart_iff_counterexample :
    alreadyInCart ⟨initialState⟩ "constructor" = true ∧
    getOwn (selectItems ⟨initialState⟩) "constructor" = none :=
  ⟨rfl, rfl⟩

/-- C10: for every cart state `s`, `clear s` is the initial empty state,
`clear (clear s) = clear s`, and on `clear s` the line list is empty and both
totals are 0. -/
theorem clear_idempotent (s : CartState) :
    clear s = initialState ∧ clear (clear s) = clear s ∧
    selectCartArray ⟨clear s⟩ = [] ∧ selectTotalItems ⟨clear s⟩ = .finite 0 ∧
    selectTotalCost ⟨clear s⟩ = .finite 0 :=
  ⟨rfl, rfl, rfl, rfl, rfl⟩

end ParadiseNursery
